import Mathlib

/-!
Verification development for `convsrc2Back.py` (repository STC, directory
STC-back): reconstruction of convective sources from backward trajectories.

The Python source is shallowly embedded.  Floating-point quantities become
real numbers, numpy int64 values become `Int`, bitfields become `Nat`.  The
per-parcel bodies of the jit kernels (`line`, `exiter`, `radada`,
`detrainer`) and of the per-parcel bookkeeping sweeps of `main` (deadborne
detection, age limit) become Lean functions on an explicit state `Prod0`
mirroring the `prod0` result dictionary; the main loop's sequence of
per-parcel mutations becomes a list of abstract `Step`s folded over that
state.  Real-valued conditionals make some definitions noncomputable; the
integer parts (`line`, flag arithmetic) stay executable.
-/

namespace STC

/-! ## Flag-bit constants (convsrc2Back.py lines 39-44) -/

def I_DEAD : ℕ := 0x200000

def I_HIT : ℕ := 0x400000

def I_OLD : ℕ := 0x800000

def I_CROSSED : ℕ := 0x2000000

def I_DBORNE : ℕ := 0x1000000

def I_STOP : ℕ := I_HIT + I_DEAD

/-! ## Pressure cuts (lines 51-53) and parameters hard coded in `main` -/

def lowpcut : ℝ := 3000

def highpcut : ℝ := 50000

/-- Detrainment offset, `main` line 104: `detr_offset = 1/(100*3600.)`. -/
noncomputable def detr_offset : ℝ := 1/(100*3600)

/-- Age limit in days, `main` line 94: `age_bound = 44.`. -/
def age_bound : ℝ := 44

/-- Domain box, `main` line 106: `domain = np.array([[-10.,160.],[0.,50.]])`,
indexed as `rr[axis, side]` with axis 0 = longitude, axis 1 = latitude. -/
def stcDomain : Fin 2 → Fin 2 → ℝ := fun i j =>
  if i = 0 then (if j = 0 then -10 else 160) else (if j = 0 then 0 else 50)

/-! ## The Bresenham rasterizer (`line`, lines 802-841)

The two `while` loops of `line` are the same loop with the roles of the two
axes exchanged: a primary coordinate `p` stepped every iteration by `spri`,
a secondary coordinate `s` stepped by `ssec` when the error term goes
negative.  `bresLoop` is that loop; the fuel argument equals the number of
iterations the `while` performs, which is exactly `|x1 - x0|` (respectively
`|y1 - y0|`) because the primary coordinate moves by `spri = ±1` towards its
target every iteration and the loop stops when it reaches it.  The returned
pair `.2` is the final `(p, s)` of the loop variables. -/

def bresLoop (dsec dpri : ℕ) (spri ssec : ℤ) :
    ℕ → ℤ → ℤ → ℤ → List (ℤ × ℤ) × (ℤ × ℤ)
  | 0, p, s, _ => ([], (p, s))
  | n+1, p, s, err =>
    let e := err - 2*(dsec : ℤ)
    let r := if e < 0 then
        bresLoop dsec dpri spri ssec n (p + spri) (s + ssec) (e + 2*(dpri : ℤ))
      else
        bresLoop dsec dpri spri ssec n (p + spri) s e
    ((p, s) :: r.1, r.2)

/-- The full sequence of points the Python `line` writes into its buffer
(one write per loop iteration at indices 0,1,2,..., plus the final write of
`(x1, y1)`); in the degenerate case a single write of `(x0, y0)`.  The
`dx > dy` branch loops on x, the other branch loops on y and writes points
as `(x, y)`, hence the swap on the generic loop's `(primary, secondary)`
output. -/
def lineRaw (x0 y0 x1 y1 : ℤ) : List (ℤ × ℤ) :=
  if x0 = x1 ∧ y0 = y1 then [(x0, y0)]
  else if (y1 - y0).natAbs < (x1 - x0).natAbs then
    (bresLoop (y1 - y0).natAbs (x1 - x0).natAbs (if x0 < x1 then 1 else -1)
        (if y0 < y1 then 1 else -1) (x1 - x0).natAbs x0 y0 ((x1 - x0).natAbs : ℤ)).1
      ++ [(x1, y1)]
  else
    ((bresLoop (x1 - x0).natAbs (y1 - y0).natAbs (if y0 < y1 then 1 else -1)
        (if x0 < x1 then 1 else -1) (y1 - y0).natAbs y0 x0 ((y1 - y0).natAbs : ℤ)).1.map
      (fun c => (c.2, c.1))) ++ [(x1, y1)]

/-- Value returned by `line`: the buffer slice `points[:i+1]`.  The buffer
`points` is allocated with 40 rows (line 805), so numpy's slicing clamps the
returned view to at most 40 rows; writes at indices ≥ 40 are out of bounds
(recorded by `lineOOB`). -/
def line (x0 y0 x1 y1 : ℤ) : List (ℤ × ℤ) := (lineRaw x0 y0 x1 y1).take 40

/-- The call performs at least one write outside the 40-row `points` buffer. -/
def lineOOB (x0 y0 x1 y1 : ℤ) : Prop := 40 < (lineRaw x0 y0 x1 y1).length

/-- Adjacency of consecutive raster cells: both coordinates move by at most
one cell (8-connectivity). -/
def stepOk (a b : ℤ × ℤ) : Prop := (b.1 - a.1).natAbs ≤ 1 ∧ (b.2 - a.2).natAbs ≤ 1

instance stepOk.instDecidableRel : DecidableRel stepOk := fun a b =>
  decidable_of_iff ((b.1 - a.1).natAbs ≤ 1 ∧ (b.2 - a.2).natAbs ≤ 1) Iff.rfl

/-! ## The time-slice generator (`get_slice_part`, lines 547-618)

One hourly-output interval `[tp, ta]`, `ta = current_date + dstep`, is cut
into `nb_slices = int(dstep/slice_width + 0.0001)` windows emitted for
`i = 0, 1, ...` in reverse chronological order (`tf = ta` first).  The
parcel arrays `part_a[live_a]`, `part_p[live_p]` are modelled as functions
on an index type `ι` of live parcels (the boolean-mask selections of the
two snapshots, aligned by order); the `live_a.sum() == 0` test is the
`live_empty` flag.  A window's end values are copied from the previous
window's start values (`dat['xf'] = dat['xi'].copy()`), hence the recursion
on the slice index. -/

/-- Snapshot arrays of one trajectory output restricted to live parcels:
x, y, pressure, temperature. -/
structure Snap (ι : Type) where
  x : ι → ℝ
  y : ι → ℝ
  p : ι → ℝ
  t : ι → ℝ

/-- Embedding of `np.clip(v, lo, hi)`. -/
noncomputable def clip (v lo hi : ℝ) : ℝ := min hi (max lo v)

/-- Number of slices, line 558: `int(dstep/slice_width+0.0001)`. -/
noncomputable def nb_slices (dstep slice_width : ℝ) : ℕ :=
  (⌊dstep / slice_width + 0.0001⌋).toNat

/-- Interpolation coefficient `coefai = (ti-tp)/dstep` of window `i`,
where `ti = ta - (i+1)*slice_width` (lines 566, 569). -/
noncomputable def coefai (tp dstep slice_width : ℝ) (i : ℕ) : ℝ :=
  ((tp + dstep - (i+1)*slice_width) - tp) / dstep

/-- Interpolation coefficient `coefpi = (ta-ti)/dstep` of window `i`
(line 570). -/
noncomputable def coefpi (tp dstep slice_width : ℝ) (i : ℕ) : ℝ :=
  ((tp + dstep) - (tp + dstep - (i+1)*slice_width)) / dstep

/-- Position fields of one emitted window (start values `xi..tempi` at time
`ti`, end values `xf..tempf` at time `tf`). -/
structure SliceVals (ι : Type) where
  xi : ι → ℝ
  yi : ι → ℝ
  pi : ι → ℝ
  tempi : ι → ℝ
  xf : ι → ℝ
  yf : ι → ℝ
  pf : ι → ℝ
  tempf : ι → ℝ

/-- One emitted `dat` dictionary: time bounds (`none` in the sentinel case),
integer time stamp, and the value arrays (`none` models the empty lists of
the sentinel case). -/
structure Dat (ι : Type) where
  ti : Option ℝ
  tf : Option ℝ
  itime : ℤ
  vals : Option (SliceVals ι)

/-- Value arrays of window `i` (lines 584-616): window 0 takes its end
values from `part_a` (x, y clipped to the domain box, p and t exact) and
interpolates its start values; window `n-1` (for `n ≥ 2`) takes its start
values from `part_p`; interior windows interpolate; every window `i ≥ 1`
copies its end values from window `i-1`'s start values. -/
noncomputable def sliceVals {ι : Type} (part_a part_p : Snap ι)
    (tp dstep slice_width : ℝ) (n : ℕ) : ℕ → SliceVals ι
  | 0 =>
    { xi := fun j => clip (coefai tp dstep slice_width 0 * part_a.x j
              + coefpi tp dstep slice_width 0 * part_p.x j) (-10) 160
      yi := fun j => clip (coefai tp dstep slice_width 0 * part_a.y j
              + coefpi tp dstep slice_width 0 * part_p.y j) 0 50
      pi := fun j => coefai tp dstep slice_width 0 * part_a.p j
              + coefpi tp dstep slice_width 0 * part_p.p j
      tempi := fun j => coefai tp dstep slice_width 0 * part_a.t j
              + coefpi tp dstep slice_width 0 * part_p.t j
      xf := fun j => clip (part_a.x j) (-10) 160
      yf := fun j => clip (part_a.y j) 0 50
      pf := part_a.p
      tempf := part_a.t }
  | i+1 =>
    let prev := sliceVals part_a part_p tp dstep slice_width n i
    if i+1 = n-1 then
      { xi := fun j => clip (part_p.x j) (-10) 160
        yi := fun j => clip (part_p.y j) 0 50
        pi := part_p.p
        tempi := part_p.t
        xf := prev.xi
        yf := prev.yi
        pf := prev.pi
        tempf := prev.tempi }
    else
      { xi := fun j => clip (coefai tp dstep slice_width (i+1) * part_a.x j
                + coefpi tp dstep slice_width (i+1) * part_p.x j) (-10) 160
        yi := fun j => clip (coefai tp dstep slice_width (i+1) * part_a.y j
                + coefpi tp dstep slice_width (i+1) * part_p.y j) 0 50
        pi := fun j => coefai tp dstep slice_width (i+1) * part_a.p j
                + coefpi tp dstep slice_width (i+1) * part_p.p j
        tempi := fun j => coefai tp dstep slice_width (i+1) * part_a.t j
                + coefpi tp dstep slice_width (i+1) * part_p.t j
        xf := prev.xi
        yf := prev.yi
        pf := prev.pi
        tempf := prev.tempi }

/-- Window `i` of the generator (`ta = current_date + dstep`, `tp =
current_date`, lines 559-577): time bounds `ti = ta - (i+1)*slice_width`,
`tf = ta - i*slice_width`, the itime counter decremented once per window
before the yield, and the value arrays; with no live parcels the sentinel
window with both time bounds `none` and no values. -/
noncomputable def get_slice_part {ι : Type} (part_a part_p : Snap ι)
    (live_empty : Bool) (current_date dstep slice_width : ℝ)
    (itime0 wsec : ℤ) (n : ℕ) (i : ℕ) : Dat ι :=
  if live_empty then
    { ti := none, tf := none, itime := itime0 - (i+1)*wsec, vals := none }
  else
    { ti := some (current_date + dstep - (i+1)*slice_width)
      tf := some (current_date + dstep - i*slice_width)
      itime := itime0 - (i+1)*wsec
      vals := some (sliceVals part_a part_p current_date dstep slice_width n i) }

/-- The finite sequence of windows the generator yields: one per iteration
of its `for i in range(nb_slices)` loop. -/
noncomputable def slicesEmitted {ι : Type} (part_a part_p : Snap ι)
    (live_empty : Bool) (current_date dstep slice_width : ℝ)
    (itime0 wsec : ℤ) : List (Dat ι) :=
  (List.range (nb_slices dstep slice_width)).map
    (get_slice_part part_a part_p live_empty current_date dstep slice_width
      itime0 wsec (nb_slices dstep slice_width))

/-- Concrete one-parcel snapshot used as counterexample input: a live
parcel at longitude 170, outside the clipping box `[-10, 160]`. -/
def snapA : Snap Unit :=
  { x := fun _ => 170, y := fun _ => 10, p := fun _ => 10000, t := fun _ => 200 }

/-- Concrete one-parcel snapshot for the other output time. -/
def snapP : Snap Unit :=
  { x := fun _ => 150, y := fun _ => 12, p := fun _ => 11000, t := fun _ => 205 }

/-! ## The parcel state and the per-parcel handlers

`prod0` of `main` becomes the structure `Prod0`: flag bitfield, survival
fraction `chi`, ratchet `passed`, the six milestone slots `src` (the five
arrays `prod0['src'][v][k, i0]` are grouped into one `Slot` per `(k, i0)`
since every writer in the source fills all five components of a slot
together), the accumulation grid `source` and the regional vector `pl`
(`nreg` stands for `len(mm['regcode'])+1`, the length of `prod0['pl']`;
the mask is typed as producing in-range region codes, which the unguarded
`pl[int(mask[ym,xm])]` of the source assumes).  The jit kernels loop over
the parcels of a slice; their loop bodies for one parcel `i0` become the
functions below, and a run of the program is a list of such per-parcel
steps applied in order. -/

/-- One archive slot of `prod0['src']`: x, y, pressure, temperature, age. -/
structure Slot where
  x : ℝ
  y : ℝ
  p : ℝ
  t : ℝ
  age : ℝ

/-- The mutable result state `prod0` (lines 211-237). -/
structure Prod0 (nlat nlon nreg N : ℕ) where
  flag_source : Fin N → ℕ
  chi : Fin N → ℝ
  passed : Fin N → ℤ
  src : Fin 6 → Fin N → Slot
  source : Fin nlat → Fin nlon → ℝ
  pl : Fin nreg → ℝ

/-- Initial state (lines 217, 223, 233, 236-237): flag copied from
`part0['flag']`, `chi = 1`, `passed = 10`, `source` and `pl` zero; the
`src` arrays are `np.nan`-filled, modelled by an arbitrary `src0`. -/
def initProd (nlat nlon nreg N : ℕ) (flag0 : Fin N → ℕ)
    (src0 : Fin 6 → Fin N → Slot) : Prod0 nlat nlon nreg N :=
  { flag_source := flag0
    chi := fun _ => 1
    passed := fun _ => 10
    src := src0
    source := fun _ _ => 0
    pl := fun _ => 0 }

/-- Write slot `k` of parcel `i0`. -/
def setSlot {N : ℕ} (src : Fin 6 → Fin N → Slot) (k : Fin 6) (i0 : Fin N)
    (v : Slot) : Fin 6 → Fin N → Slot :=
  Function.update src k (Function.update (src k) i0 v)

/-- Clamp an integer index into `{0, ..., n-1}`:
`min(n-1, max(0, z))` of lines 714-715. -/
def clampIdx (n : ℕ) [NeZero n] (z : ℤ) : Fin n :=
  ⟨(min ((n:ℤ) - 1) (max 0 z)).toNat, by
    have h : 0 < n := Nat.pos_of_ne_zero (NeZero.ne n)
    omega⟩

/-- Loop body of `exiter` (lines 626-642) for one parcel: `x y p t` are the
parcel's last known values from the older snapshot, `itime` the midpoint
time `int((partante['itime']+partpost['itime'])/2)` passed by `main`,
`irs = ir_start[i0]`, `rr` the domain box.  A parcel already DEAD is
skipped; otherwise slot 0 receives the last known state with age
`ir_start - itime` (in seconds) and the flag gains
`(excode << 13) + I_DEAD + I_CROSSED`. -/
noncomputable def exiter {nlat nlon nreg N : ℕ} (itime : ℤ) (x y p t : ℝ)
    (i0 : Fin N) (irs : ℤ) (rr : Fin 2 → Fin 2 → ℝ)
    (P : Prod0 nlat nlon nreg N) : Prod0 nlat nlon nreg N :=
  if P.flag_source i0 &&& I_DEAD = 0 then
    { P with
      src := setSlot P.src 0 i0 ⟨x, y, p, t, ((irs - itime : ℤ) : ℝ)⟩
      flag_source := Function.update P.flag_source i0
        (P.flag_source i0 |||
          ((if y < rr 1 0 + 4 then 6
            else if x < rr 0 0 + 4 then 3
            else if y > rr 1 1 - 4 then 4
            else if x > rr 0 1 - 4 then 5
            else if p > highpcut - 150 then 1
            else if p < lowpcut + 15 then 2
            else 7) <<< 13 + I_DEAD + I_CROSSED)) }
  else P

/-- Loop body of `radada` (lines 646-657) for one parcel: identical
bookkeeping with the fixed exit code 8. -/
def radada {nlat nlon nreg N : ℕ} (itime : ℤ) (x y p t : ℝ)
    (i0 : Fin N) (irs : ℤ) (P : Prod0 nlat nlon nreg N) :
    Prod0 nlat nlon nreg N :=
  if P.flag_source i0 &&& I_DEAD = 0 then
    { P with
      src := setSlot P.src 0 i0 ⟨x, y, p, t, ((irs - itime : ℤ) : ℝ)⟩
      flag_source := Function.update P.flag_source i0
        (P.flag_source i0 ||| (8 <<< 13 + I_DEAD + I_CROSSED)) }
  else P

/-- Per-parcel body of the deadborne sweep (lines 323-328): flag gains
`I_DEAD + I_DBORNE`, slot 0 receives the launch position with age 0.
No liveness test is performed by the source here. -/
def deadborne {nlat nlon nreg N : ℕ} (x y p t : ℝ) (i0 : Fin N)
    (P : Prod0 nlat nlon nreg N) : Prod0 nlat nlon nreg N :=
  { P with
    flag_source := Function.update P.flag_source i0
      (P.flag_source i0 ||| (I_DEAD + I_DBORNE))
    src := setSlot P.src 0 i0 ⟨x, y, p, t, 0⟩ }

/-- Per-parcel body of the age-limit sweep (lines 459-469): `x y p t` from
the older snapshot `partante`, `itime = partante['itime']`.  The parcel is
terminated when its age in seconds exceeds `(age_bound - 0.25) * 86400`
and its flag has none of the `I_STOP = I_HIT + I_DEAD` bits; slot 0 then
receives the current state with age `(ir_start - itime)/86400` (in days)
and the flag gains `I_DEAD + I_OLD`. -/
noncomputable def ageSweep {nlat nlon nreg N : ℕ} (itime : ℤ) (x y p t : ℝ)
    (i0 : Fin N) (irs : ℤ) (P : Prod0 nlat nlon nreg N) :
    Prod0 nlat nlon nreg N :=
  if ((age_bound - 0.25) * 86400 < ((irs - itime : ℤ) : ℝ)) ∧
      P.flag_source i0 &&& I_STOP = 0 then
    { P with
      flag_source := Function.update P.flag_source i0
        (P.flag_source i0 ||| (I_DEAD + I_OLD))
      src := setSlot P.src 0 i0 ⟨x, y, p, t, ((irs - itime : ℤ) : ℝ) / 86400⟩ }
  else P

/-- Nearest grid cell of a continuous coordinate,
`int(math.floor((v-orig)/d+0.5))` (lines 682-685). -/
noncomputable def gridRound (v orig d : ℝ) : ℤ := ⌊(v - orig)/d + 0.5⌋

/-- Mean detrainment rate over the rasterized path (lines 699-710):
`udr[hyb, cell.y, cell.x]` summed over the cells of `line` and divided by
the number of cells. -/
noncomputable def pathMeanDetr (udr : ℤ → ℤ → ℤ → ℝ) (hyb : ℤ)
    (xig yig xfg yfg : ℤ) : ℝ :=
  ((line xig yig xfg yfg).map (fun c => udr hyb c.2 c.1)).sum
    / ((line xig yig xfg yfg).length : ℝ)

/-- Increment one entry of the `nhits` counter vector. -/
def bump (nh : Fin 6 → ℕ) (k : Fin 6) : Fin 6 → ℕ :=
  Function.update nh k (nh k + 1)

/-- Effect of one ratchet rung firing (lines 721-729 and analogues):
archive the slice start position into slot `k` with age
`ir_start - itime` (seconds), optionally set `I_HIT` (first rung only),
and set `passed` to the next rung value. -/
def fireRung {nlat nlon nreg N : ℕ} (k : Fin 6) (newp : ℤ) (setHit : Bool)
    (itime : ℤ) (xi yi pi ti : ℝ) (i0 : Fin N) (irs : ℤ)
    (P : Prod0 nlat nlon nreg N) : Prod0 nlat nlon nreg N :=
  { P with
    src := setSlot P.src k i0 ⟨xi, yi, pi, ti, ((irs - itime : ℤ) : ℝ)⟩
    flag_source := if setHit then
        Function.update P.flag_source i0 (P.flag_source i0 ||| I_HIT)
      else P.flag_source
    passed := Function.update P.passed i0 newp }

/-- One conditional rung block of the cascade: fires when `passed` equals
the rung's entry value and `chi` (already updated) has dropped below the
rung's threshold, also bumping that rung's `nhits` counter. -/
noncomputable def rungStep {nlat nlon nreg N : ℕ} (oldp newp : ℤ) (thr : ℝ)
    (k : Fin 6) (setHit : Bool) (itime : ℤ) (xi yi pi ti : ℝ) (i0 : Fin N)
    (irs : ℤ) (Pn : Prod0 nlat nlon nreg N × (Fin 6 → ℕ)) :
    Prod0 nlat nlon nreg N × (Fin 6 → ℕ) :=
  if Pn.1.passed i0 = oldp ∧ Pn.1.chi i0 < thr then
    (fireRung k newp setHit itime xi yi pi ti i0 irs Pn.1, bump Pn.2 k)
  else Pn

/-- The ratchet cascade (lines 720-765): the five rung blocks in source
order; a rung set by an earlier block can enable the next block within the
same call.  Only the first rung (10 to 9) sets `I_HIT`. -/
noncomputable def cascade {nlat nlon nreg N : ℕ} (itime : ℤ)
    (xi yi pi ti : ℝ) (i0 : Fin N) (irs : ℤ)
    (Pn : Prod0 nlat nlon nreg N × (Fin 6 → ℕ)) :
    Prod0 nlat nlon nreg N × (Fin 6 → ℕ) :=
  rungStep 3 1 0.1 5 false itime xi yi pi ti i0 irs
    (rungStep 5 3 0.3 4 false itime xi yi pi ti i0 irs
      (rungStep 7 5 0.5 3 false itime xi yi pi ti i0 irs
        (rungStep 9 7 0.7 2 false itime xi yi pi ti i0 irs
          (rungStep 10 9 0.9 1 true itime xi yi pi ti i0 irs Pn))))

/-- Loop body of `detrainer` (lines 672-765) for one live parcel, returning
the updated state together with this parcel's contribution to the `nhits`
counters.  The erosion factor is the hard-coded one-hour exposure
`exp(-3600*detr)` (line 713); the eroded mass is deposited at the clamped
midpoint cell of the path and at that cell's region code; then the ratchet
cascade runs if `passed > 1`. -/
noncomputable def detrainer {nlat nlon nreg N : ℕ} [NeZero nlat] [NeZero nlon]
    (itime : ℤ) (xi yi pi ti : ℝ) (hyb : ℤ) (xf yf : ℝ)
    (udr : ℤ → ℤ → ℤ → ℝ) (i0 : Fin N) (irs : ℤ)
    (Lo1 La1 dlo dla : ℝ) (xshift yshift : ℤ)
    (mask : Fin nlat → Fin nlon → Fin nreg)
    (P : Prod0 nlat nlon nreg N) : Prod0 nlat nlon nreg N × (Fin 6 → ℕ) :=
  if P.flag_source i0 &&& I_DEAD = 0 then
    let xig := gridRound xi Lo1 dlo
    let yig := gridRound yi La1 dla
    let xfg := gridRound xf Lo1 dlo
    let yfg := gridRound yf La1 dla
    let detr := pathMeanDetr udr hyb xig yig xfg yfg
    if detr_offset ≤ detr then
      let newchi := P.chi i0 * Real.exp (-3600 * detr)
      let xm := clampIdx nlon ((xig + xfg).tdiv 2 + xshift)
      let ym := clampIdx nlat ((yig + yfg).tdiv 2 + yshift)
      let P1 : Prod0 nlat nlon nreg N :=
        { P with
          source := Function.update P.source ym
            (Function.update (P.source ym) xm (P.source ym xm + (P.chi i0 - newchi)))
          pl := Function.update P.pl (mask ym xm)
            (P.pl (mask ym xm) + (P.chi i0 - newchi))
          chi := Function.update P.chi i0 newchi }
      if 1 < P1.passed i0 then
        cascade itime xi yi pi ti i0 irs (P1, fun _ => 0)
      else (P1, fun _ => 0)
    else (P, fun _ => 0)
  else (P, fun _ => 0)

/-- One per-parcel mutation of the run: the five kinds of writers of the
parcel state in `main`'s loop (deadborne sweep, `exiter`, `radada`,
`detrainer`, age-limit sweep), with the per-call data they receive. -/
inductive Step (nlat nlon nreg N : ℕ) where
  | deadborne (x y p t : ℝ) (i0 : Fin N)
  | exit (itime : ℤ) (x y p t : ℝ) (i0 : Fin N) (irs : ℤ)
  | ground (itime : ℤ) (x y p t : ℝ) (i0 : Fin N) (irs : ℤ)
  | detrain (itime : ℤ) (xi yi pi ti : ℝ) (hyb : ℤ) (xf yf : ℝ)
      (udr : ℤ → ℤ → ℤ → ℝ) (i0 : Fin N) (irs : ℤ)
      (Lo1 La1 dlo dla : ℝ) (xshift yshift : ℤ)
      (mask : Fin nlat → Fin nlon → Fin nreg)
  | agesweep (itime : ℤ) (x y p t : ℝ) (i0 : Fin N) (irs : ℤ)

/-- Apply one step to the state (`exiter` receives the fixed `domain` box,
as in `main` line 342). -/
noncomputable def Step.apply {nlat nlon nreg N : ℕ} [NeZero nlat] [NeZero nlon] :
    Step nlat nlon nreg N → Prod0 nlat nlon nreg N → Prod0 nlat nlon nreg N
  | .deadborne x y p t i0, P => STC.deadborne x y p t i0 P
  | .exit itime x y p t i0 irs, P => exiter itime x y p t i0 irs stcDomain P
  | .ground itime x y p t i0 irs, P => radada itime x y p t i0 irs P
  | .detrain itime xi yi pi ti hyb xf yf udr i0 irs Lo1 La1 dlo dla xs ys mask, P =>
      (detrainer itime xi yi pi ti hyb xf yf udr i0 irs Lo1 La1 dlo dla xs ys mask P).1
  | .agesweep itime x y p t i0 irs, P => ageSweep itime x y p t i0 irs P

/-- Fold a list of per-parcel steps over the state, in order. -/
noncomputable def run {nlat nlon nreg N : ℕ} [NeZero nlat] [NeZero nlon]
    (P : Prod0 nlat nlon nreg N) : List (Step nlat nlon nreg N) →
    Prod0 nlat nlon nreg N
  | [] => P
  | st :: l => run (st.apply P) l

/-- Ratchet values `{10, 9, 7, 5, 3, 1}`. -/
def rungVals (p : ℤ) : Prop :=
  p = 10 ∨ p = 9 ∨ p = 7 ∨ p = 5 ∨ p = 3 ∨ p = 1

/-- The erosion update of lines 713-718, written out as one state update:
chi is multiplied by `exp(-3600*detr)` and the lost mass is added to the
clamped midpoint cell of `source` and to that cell's region entry of `pl`.
This is exactly the intermediate state built inside `detrainer` before the
ratchet cascade runs. -/
noncomputable def erodedState {nlat nlon nreg N : ℕ} [NeZero nlat] [NeZero nlon]
    (xig yig xfg yfg : ℤ) (detr : ℝ) (i0 : Fin N) (xshift yshift : ℤ)
    (mask : Fin nlat → Fin nlon → Fin nreg) (P : Prod0 nlat nlon nreg N) :
    Prod0 nlat nlon nreg N :=
  { P with
    source := Function.update P.source (clampIdx nlat ((yig + yfg).tdiv 2 + yshift))
      (Function.update (P.source (clampIdx nlat ((yig + yfg).tdiv 2 + yshift)))
        (clampIdx nlon ((xig + xfg).tdiv 2 + xshift))
        (P.source (clampIdx nlat ((yig + yfg).tdiv 2 + yshift))
            (clampIdx nlon ((xig + xfg).tdiv 2 + xshift))
          + (P.chi i0 - P.chi i0 * Real.exp (-3600 * detr))))
    pl := Function.update P.pl
      (mask (clampIdx nlat ((yig + yfg).tdiv 2 + yshift))
        (clampIdx nlon ((xig + xfg).tdiv 2 + xshift)))
      (P.pl (mask (clampIdx nlat ((yig + yfg).tdiv 2 + yshift))
          (clampIdx nlon ((xig + xfg).tdiv 2 + xshift)))
        + (P.chi i0 - P.chi i0 * Real.exp (-3600 * detr)))
    chi := Function.update P.chi i0 (P.chi i0 * Real.exp (-3600 * detr)) }

/-- Concrete one-parcel state with clean flags, used to exercise the
handlers on explicit inputs. -/
def P0 : Prod0 1 1 1 1 := initProd 1 1 1 1 (fun _ => 0) (fun _ _ => ⟨0, 0, 0, 0, 0⟩)

/-- Concrete one-parcel state whose parcel has only `I_HIT` set. -/
def PHit : Prod0 1 1 1 1 := initProd 1 1 1 1 (fun _ => I_HIT) (fun _ _ => ⟨0, 0, 0, 0, 0⟩)

/-- Concrete one-parcel state whose parcel is already DEAD. -/
def PDead : Prod0 1 1 1 1 := initProd 1 1 1 1 (fun _ => I_DEAD) (fun _ _ => ⟨0, 0, 0, 0, 0⟩)

/-- Constant unit detrainment-rate field. -/
def udr1 : ℤ → ℤ → ℤ → ℝ := fun _ _ _ => 1

/-- Trivial region mask on the 1-cell grid. -/
def mask0 : Fin 1 → Fin 1 → Fin 1 := fun _ _ => 0

lemma last_append_single {α : Type} (l : List α) (a : α) : (l ++ [a]).getLast? = some a := by
  rw [List.getLast?_append_cons]
  rfl

lemma bresLoop_length (dsec dpri : ℕ) (spri ssec : ℤ) :
    ∀ (n : ℕ) (p s err : ℤ), ((bresLoop dsec dpri spri ssec n p s err).1).length = n := by
  intro n
  induction n with
  | zero => intro p s err; rfl
  | succ n ih =>
    intro p s err
    simp only [bresLoop]
    split
    · simp [ih]
    · simp [ih]

lemma bresLoop_cons_head (dsec dpri : ℕ) (spri ssec : ℤ) (n : ℕ) (p s err : ℤ) :
    ((bresLoop dsec dpri spri ssec n p s err).1
      ++ [(bresLoop dsec dpri spri ssec n p s err).2]).head? = some (p, s) := by
  cases n with
  | zero => rfl
  | succ n =>
    simp only [bresLoop]
    split <;> rfl

lemma bresLoop_chain (dsec dpri : ℕ) (spri ssec : ℤ)
    (h1 : spri.natAbs ≤ 1) (h2 : ssec.natAbs ≤ 1) :
    ∀ (n : ℕ) (p s err : ℤ),
      List.Chain' stepOk
        ((bresLoop dsec dpri spri ssec n p s err).1
          ++ [(bresLoop dsec dpri spri ssec n p s err).2]) := by
  intro n
  induction n with
  | zero => intro p s err; simp [bresLoop]
  | succ n ih =>
    intro p s err
    simp only [bresLoop]
    split
    · rw [List.cons_append, List.chain'_cons']
      refine ⟨?_, ih _ _ _⟩
      intro b hb
      rw [bresLoop_cons_head] at hb
      simp only [Option.mem_some_iff] at hb
      subst hb
      show ((p + spri) - p).natAbs ≤ 1 ∧ ((s + ssec) - s).natAbs ≤ 1
      constructor <;> omega
    · rw [List.cons_append, List.chain'_cons']
      refine ⟨?_, ih _ _ _⟩
      intro b hb
      rw [bresLoop_cons_head] at hb
      simp only [Option.mem_some_iff] at hb
      subst hb
      show ((p + spri) - p).natAbs ≤ 1 ∧ (s - s).natAbs ≤ 1
      constructor <;> omega

lemma bresLoop_snd (dsec dpri : ℕ) (spri ssec : ℤ) (hle : dsec ≤ dpri) :
    ∀ (n : ℕ) (p s err : ℤ), 0 ≤ err → err < 2*(dpri : ℤ) →
      ∃ m : ℕ, (bresLoop dsec dpri spri ssec n p s err).2 = (p + n*spri, s + m*ssec) ∧
        0 ≤ err - 2*(n:ℤ)*(dsec:ℤ) + 2*(m:ℤ)*(dpri:ℤ) ∧
        err - 2*(n:ℤ)*(dsec:ℤ) + 2*(m:ℤ)*(dpri:ℤ) < 2*(dpri:ℤ) := by
  intro n
  induction n with
  | zero =>
    intro p s err h0 h1
    exact ⟨0, by simp [bresLoop], by simpa using h0, by simpa using h1⟩
  | succ n ih =>
    intro p s err h0 h1
    simp only [bresLoop]
    split
    · rename_i hc
      obtain ⟨m, hm, hb0, hb1⟩ :=
        ih (p + spri) (s + ssec) (err - 2*(dsec:ℤ) + 2*(dpri:ℤ)) (by omega) (by omega)
      refine ⟨m + 1, ?_, ?_, ?_⟩
      · rw [hm, Prod.mk.injEq]
        constructor <;> push_cast <;> ring
      · push_cast
        linarith
      · push_cast
        linarith
    · rename_i hc
      obtain ⟨m, hm, hb0, hb1⟩ :=
        ih (p + spri) s (err - 2*(dsec:ℤ)) (by omega) (by omega)
      refine ⟨m, ?_, ?_, ?_⟩
      · rw [hm, Prod.mk.injEq]
        constructor <;> push_cast <;> ring
      · push_cast
        linarith
      · push_cast
        linarith

lemma bresLoop_final (dsec dpri : ℕ) (spri ssec : ℤ) (hle : dsec ≤ dpri)
    (hpos : 0 < dpri) (p s : ℤ) :
    (bresLoop dsec dpri spri ssec dpri p s (dpri : ℤ)).2
      = (p + (dpri:ℤ)*spri, s + (dsec:ℤ)*ssec) := by
  have hd : (0:ℤ) < (dpri:ℤ) := by exact_mod_cast hpos
  obtain ⟨m, hm, hb0, hb1⟩ :=
    bresLoop_snd dsec dpri spri ssec hle dpri p s (dpri:ℤ) (by positivity) (by omega)
  have e1 : (dpri:ℤ) - 2*(dpri:ℤ)*(dsec:ℤ) + 2*(m:ℤ)*(dpri:ℤ)
      = (dpri:ℤ) * (1 - 2*(dsec:ℤ) + 2*(m:ℤ)) := by ring
  rw [e1] at hb0 hb1
  have h2 : (1 - 2*(dsec:ℤ) + 2*(m:ℤ)) < 2 := by
    have hlt : (dpri:ℤ) * (1 - 2*(dsec:ℤ) + 2*(m:ℤ)) < (dpri:ℤ) * 2 := by linarith
    exact (mul_lt_mul_left hd).mp hlt
  have h3 : 0 ≤ (1 - 2*(dsec:ℤ) + 2*(m:ℤ)) := by nlinarith
  have key : (m:ℤ) = (dsec:ℤ) := by omega
  rw [hm, key]

lemma add_natAbs_sign (a b : ℤ) :
    a + ((b - a).natAbs : ℤ) * (if a < b then 1 else -1) = b := by
  split <;> omega

/-- Core specification of the write sequence of `line`, for all inputs:
starts at `(x0,y0)`, ends at `(x1,y1)`, has exactly
`max |x1-x0| |y1-y0| + 1` writes, consecutive writes move by at most one
cell in each axis. -/
theorem lineRaw_spec (x0 y0 x1 y1 : ℤ) :
    (lineRaw x0 y0 x1 y1).head? = some (x0, y0) ∧
    (lineRaw x0 y0 x1 y1).getLast? = some (x1, y1) ∧
    (lineRaw x0 y0 x1 y1).length = max (x1 - x0).natAbs (y1 - y0).natAbs + 1 ∧
    List.Chain' stepOk (lineRaw x0 y0 x1 y1) := by
  by_cases hdeg : x0 = x1 ∧ y0 = y1
  · obtain ⟨hx, hy⟩ := hdeg
    subst hx; subst hy
    simp [lineRaw]
  · have hsx : (if x0 < x1 then (1:ℤ) else -1).natAbs ≤ 1 := by split <;> simp
    have hsy : (if y0 < y1 then (1:ℤ) else -1).natAbs ≤ 1 := by split <;> simp
    by_cases hbr : (y1 - y0).natAbs < (x1 - x0).natAbs
    · have hpos : 0 < (x1 - x0).natAbs := lt_of_le_of_lt (Nat.zero_le _) hbr
      have hfin := bresLoop_final (y1 - y0).natAbs (x1 - x0).natAbs
        (if x0 < x1 then 1 else -1) (if y0 < y1 then 1 else -1)
        (le_of_lt hbr) hpos x0 y0
      have hx1 : x0 + ((x1 - x0).natAbs : ℤ) * (if x0 < x1 then 1 else -1) = x1 :=
        add_natAbs_sign x0 x1
      have hy1 : y0 + ((y1 - y0).natAbs : ℤ) * (if y0 < y1 then 1 else -1) = y1 :=
        add_natAbs_sign y0 y1
      have hfin' : (bresLoop (y1 - y0).natAbs (x1 - x0).natAbs
          (if x0 < x1 then 1 else -1) (if y0 < y1 then 1 else -1)
          (x1 - x0).natAbs x0 y0 ((x1 - x0).natAbs : ℤ)).2 = (x1, y1) := by
        rw [hfin, Prod.mk.injEq]
        exact ⟨hx1, hy1⟩
      have hform : lineRaw x0 y0 x1 y1
          = (bresLoop (y1 - y0).natAbs (x1 - x0).natAbs
              (if x0 < x1 then 1 else -1) (if y0 < y1 then 1 else -1)
              (x1 - x0).natAbs x0 y0 ((x1 - x0).natAbs : ℤ)).1
            ++ [(bresLoop (y1 - y0).natAbs (x1 - x0).natAbs
              (if x0 < x1 then 1 else -1) (if y0 < y1 then 1 else -1)
              (x1 - x0).natAbs x0 y0 ((x1 - x0).natAbs : ℤ)).2] := by
        rw [lineRaw, if_neg hdeg, if_pos hbr, hfin']
      refine ⟨?_, ?_, ?_, ?_⟩
      · rw [hform]; exact bresLoop_cons_head _ _ _ _ _ _ _ _
      · rw [lineRaw, if_neg hdeg, if_pos hbr]
        exact last_append_single _ _
      · rw [lineRaw, if_neg hdeg, if_pos hbr]
        rw [List.length_append, bresLoop_length]
        simp [Nat.max_eq_left (le_of_lt hbr)]
      · rw [hform]
        exact bresLoop_chain _ _ _ _ hsx hsy _ _ _ _
    · have hle : (x1 - x0).natAbs ≤ (y1 - y0).natAbs := le_of_not_lt hbr
      have hpos : 0 < (y1 - y0).natAbs := by omega
      have hfin := bresLoop_final (x1 - x0).natAbs (y1 - y0).natAbs
        (if y0 < y1 then 1 else -1) (if x0 < x1 then 1 else -1)
        hle hpos y0 x0
      have hx1 : x0 + ((x1 - x0).natAbs : ℤ) * (if x0 < x1 then 1 else -1) = x1 :=
        add_natAbs_sign x0 x1
      have hy1 : y0 + ((y1 - y0).natAbs : ℤ) * (if y0 < y1 then 1 else -1) = y1 :=
        add_natAbs_sign y0 y1
      have hfin' : (bresLoop (x1 - x0).natAbs (y1 - y0).natAbs
          (if y0 < y1 then 1 else -1) (if x0 < x1 then 1 else -1)
          (y1 - y0).natAbs y0 x0 ((y1 - y0).natAbs : ℤ)).2 = (y1, x1) := by
        rw [hfin, Prod.mk.injEq]
        exact ⟨hy1, hx1⟩
      have hform : lineRaw x0 y0 x1 y1
          = ((bresLoop (x1 - x0).natAbs (y1 - y0).natAbs
              (if y0 < y1 then 1 else -1) (if x0 < x1 then 1 else -1)
              (y1 - y0).natAbs y0 x0 ((y1 - y0).natAbs : ℤ)).1
            ++ [(bresLoop (x1 - x0).natAbs (y1 - y0).natAbs
              (if y0 < y1 then 1 else -1) (if x0 < x1 then 1 else -1)
              (y1 - y0).natAbs y0 x0 ((y1 - y0).natAbs : ℤ)).2]).map
              (fun c => (c.2, c.1)) := by
        rw [lineRaw, if_neg hdeg, if_neg hbr, List.map_append, hfin']
        rfl
      refine ⟨?_, ?_, ?_, ?_⟩
      · rw [hform, List.head?_map, bresLoop_cons_head]
        rfl
      · rw [lineRaw, if_neg hdeg, if_neg hbr]
        exact last_append_single _ _
      · rw [lineRaw, if_neg hdeg, if_neg hbr]
        rw [List.length_append, List.length_map, bresLoop_length]
        simp [Nat.max_eq_right hle]
      · rw [hform, List.chain'_map]
        refine List.Chain'.imp ?_ (bresLoop_chain _ _ _ _ hsy hsx _ _ _ _)
        intro a b h
        exact ⟨h.2, h.1⟩

/-- C7 (amended form): whenever the path fits the 40-row buffer, i.e.
`max |x1-x0| |y1-y0| + 1 ≤ 40`, `line` returns the ordered 8-connected path
from `(x0,y0)` to `(x1,y1)`: it starts at `(x0,y0)`, ends at `(x1,y1)`, has
length `max |Δx| |Δy| + 1`, consecutive cells differ by at most 1 in each
axis, and `line 5 5 5 5 = [(5,5)]`. -/
theorem C7_line_path (x0 y0 x1 y1 : ℤ)
    (h : max (x1 - x0).natAbs (y1 - y0).natAbs + 1 ≤ 40) :
    (line x0 y0 x1 y1).head? = some (x0, y0) ∧
    (line x0 y0 x1 y1).getLast? = some (x1, y1) ∧
    (line x0 y0 x1 y1).length = max (x1 - x0).natAbs (y1 - y0).natAbs + 1 ∧
    List.Chain' stepOk (line x0 y0 x1 y1) ∧
    line 5 5 5 5 = [(5, 5)] := by
  obtain ⟨h1, h2, h3, h4⟩ := lineRaw_spec x0 y0 x1 y1
  have htake : line x0 y0 x1 y1 = lineRaw x0 y0 x1 y1 := by
    rw [line, List.take_of_length_le (by omega)]
  rw [htake]
  exact ⟨h1, h2, h3, h4, by decide⟩

theorem C7_line_path_witness :
    (max ((3:ℤ) - 0).natAbs ((2:ℤ) - 0).natAbs + 1 ≤ 40) ∧
    ((line 0 0 3 2).head? = some (0, 0) ∧
      (line 0 0 3 2).getLast? = some (3, 2) ∧
      (line 0 0 3 2).length = max ((3:ℤ) - 0).natAbs ((2:ℤ) - 0).natAbs + 1 ∧
      List.Chain' stepOk (line 0 0 3 2) ∧
      line 5 5 5 5 = [(5, 5)]) :=
  ⟨by decide, C7_line_path 0 0 3 2 (by decide)⟩

/-- C7 (counterexample to the claim as stated): the claim quantifies over
every pair of integer grid coordinates, but for a separation of 41 cells
the fixed 40-row buffer makes the returned slice 40 cells long instead of
the claimed `max |Δx| |Δy| + 1 = 42`. -/
theorem C7_line_counterexample :
    ¬ ((line 0 0 41 0).length
        = max ((41:ℤ) - 0).natAbs ((0:ℤ) - 0).natAbs + 1) := by decide

/-- C8 (amended form): the call writes inside the 40-row `points` buffer
exactly when `max |Δx| |Δy| + 1 ≤ 40`, and in that case the returned slice
is the complete write sequence. -/
theorem C8_line_buffer (x0 y0 x1 y1 : ℤ) :
    (¬ lineOOB x0 y0 x1 y1 ↔ max (x1 - x0).natAbs (y1 - y0).natAbs + 1 ≤ 40) ∧
    (max (x1 - x0).natAbs (y1 - y0).natAbs + 1 ≤ 40 →
      line x0 y0 x1 y1 = lineRaw x0 y0 x1 y1) := by
  obtain ⟨-, -, h3, -⟩ := lineRaw_spec x0 y0 x1 y1
  constructor
  · rw [lineOOB, h3]
    omega
  · intro h
    rw [line, List.take_of_length_le (by omega)]

theorem C8_line_buffer_witness :
    ¬ lineOOB 0 0 3 2 ∧ line 0 0 3 2 = lineRaw 0 0 3 2 :=
  ⟨(C8_line_buffer 0 0 3 2).1.mpr (by decide), (C8_line_buffer 0 0 3 2).2 (by decide)⟩

/-- C8 (counterexample to the claim as stated): a pair of cells separated by
41 columns is well within the domain extent (681 cells of longitude, 201 of
latitude) claimed safe, yet the call writes outside the 40-row buffer. -/
theorem C8_line_counterexample :
    ((41:ℤ) - 0).natAbs + 1 ≤ 681 ∧ ((0:ℤ) - 0).natAbs + 1 ≤ 201 ∧
      lineOOB 0 0 41 0 := by
  refine ⟨by decide, by decide, ?_⟩
  rw [lineOOB]
  decide

lemma clip_eq_self {v lo hi : ℝ} (h1 : lo ≤ v) (h2 : v ≤ hi) : clip v lo hi = v := by
  rw [clip, max_eq_right h1, min_eq_right h2]

lemma nb_slices_exact (slice_width : ℝ) (n : ℕ) (hw : 0 < slice_width) :
    nb_slices ((n : ℝ) * slice_width) slice_width = n := by
  rw [nb_slices]
  have hne : slice_width ≠ 0 := ne_of_gt hw
  have h1 : (n : ℝ) * slice_width / slice_width = (n : ℝ) := by field_simp
  rw [h1]
  have h2 : ⌊(n : ℝ) + 0.0001⌋ = (n : ℤ) := by
    rw [Int.floor_eq_iff]
    constructor
    · push_cast
      norm_num
    · push_cast
      norm_num
  rw [h2]
  simp

lemma coef_sum (tp dstep slice_width : ℝ) (i : ℕ) (hd : dstep ≠ 0) :
    coefai tp dstep slice_width i + coefpi tp dstep slice_width i = 1 := by
  rw [coefai, coefpi]
  field_simp
  ring

/-- C9 (amended form): over one output interval `[tp, ta]`,
`ta = tp + dstep`, with `dstep = n * slice_width` and positive width, the
generator yields exactly `n` windows, with time bounds
`tf = ta - i*slice_width`, `ti = ta - (i+1)*slice_width` strictly
decreasing in `i` (so the window with `tf = ta` comes first); window 0
takes its end-point p and temperature exactly from the snapshot at `ta`
and its end-point x, y as the snapshot values clipped to the domain box;
window `n-1` takes its start-point values likewise from the snapshot at
`tp`; interior windows use linear interpolation whose coefficients sum
to 1; and with no live parcels every window is the sentinel with both time
bounds `none`. -/
theorem C9_slice_windows {ι : Type} (part_a part_p : Snap ι)
    (live_empty : Bool) (tp dstep slice_width : ℝ) (itime0 wsec : ℤ) (n : ℕ)
    (hw : 0 < slice_width) (hn : dstep = (n : ℝ) * slice_width) :
    (slicesEmitted part_a part_p live_empty tp dstep slice_width itime0 wsec).length = n ∧
    (∀ i : ℕ,
      (get_slice_part part_a part_p false tp dstep slice_width itime0 wsec n i).tf
          = some (tp + dstep - i*slice_width) ∧
      (get_slice_part part_a part_p false tp dstep slice_width itime0 wsec n i).ti
          = some (tp + dstep - (i+1)*slice_width) ∧
      tp + dstep - ((i:ℝ)+1)*slice_width < tp + dstep - (i:ℝ)*slice_width) ∧
    ((sliceVals part_a part_p tp dstep slice_width n 0).pf = part_a.p ∧
      (sliceVals part_a part_p tp dstep slice_width n 0).tempf = part_a.t ∧
      (∀ j, (sliceVals part_a part_p tp dstep slice_width n 0).xf j
            = clip (part_a.x j) (-10) 160 ∧
        (sliceVals part_a part_p tp dstep slice_width n 0).yf j
            = clip (part_a.y j) 0 50)) ∧
    (2 ≤ n →
      (sliceVals part_a part_p tp dstep slice_width n (n-1)).pi = part_p.p ∧
      (sliceVals part_a part_p tp dstep slice_width n (n-1)).tempi = part_p.t ∧
      (∀ j, (sliceVals part_a part_p tp dstep slice_width n (n-1)).xi j
            = clip (part_p.x j) (-10) 160 ∧
        (sliceVals part_a part_p tp dstep slice_width n (n-1)).yi j
            = clip (part_p.y j) 0 50)) ∧
    (∀ i : ℕ, 0 < i → i + 1 < n →
      (∀ j, (sliceVals part_a part_p tp dstep slice_width n i).pi j
            = coefai tp dstep slice_width i * part_a.p j
              + coefpi tp dstep slice_width i * part_p.p j ∧
        (sliceVals part_a part_p tp dstep slice_width n i).tempi j
            = coefai tp dstep slice_width i * part_a.t j
              + coefpi tp dstep slice_width i * part_p.t j ∧
        (sliceVals part_a part_p tp dstep slice_width n i).xi j
            = clip (coefai tp dstep slice_width i * part_a.x j
                + coefpi tp dstep slice_width i * part_p.x j) (-10) 160) ∧
      coefai tp dstep slice_width i + coefpi tp dstep slice_width i = 1) ∧
    (∀ i : ℕ,
      (get_slice_part part_a part_p true tp dstep slice_width itime0 wsec n i).ti
          = none ∧
      (get_slice_part part_a part_p true tp dstep slice_width itime0 wsec n i).tf
          = none) := by
  refine ⟨?_, ?_, ?_, ?_, ?_, ?_⟩
  · rw [slicesEmitted, List.length_map, List.length_range, hn]
    exact nb_slices_exact slice_width n hw
  · intro i
    refine ⟨by simp [get_slice_part], by simp [get_slice_part], ?_⟩
    nlinarith
  · exact ⟨rfl, rfl, fun j => ⟨rfl, rfl⟩⟩
  · intro h2
    obtain ⟨k, hk⟩ : ∃ k, n - 1 = k + 1 := ⟨n - 2, by omega⟩
    have hcond : k + 1 = n - 1 := hk.symm
    rw [hk]
    simp only [sliceVals]
    rw [if_pos hcond]
    exact ⟨rfl, rfl, fun j => ⟨rfl, rfl⟩⟩
  · intro i hi0 hi1
    obtain ⟨k, hk⟩ : ∃ k, i = k + 1 := ⟨i - 1, by omega⟩
    have hcond : ¬ (k + 1 = n - 1) := by omega
    have hd : dstep ≠ 0 := by
      rw [hn]
      have hnp : (0:ℝ) < (n:ℝ) := by exact_mod_cast (by omega : 0 < n)
      positivity
    constructor
    · intro j
      rw [hk]
      simp only [sliceVals]
      rw [if_neg hcond]
      exact ⟨rfl, rfl, rfl⟩
    · exact coef_sum tp dstep slice_width i hd
  · intro i
    exact ⟨by simp [get_slice_part], by simp [get_slice_part]⟩

/-- C9 (counterexample to the claim as stated): for a live parcel whose
snapshot longitude is 170, outside the clipping box, the first emitted
window's end-point x is the clipped value 160, not the snapshot value 170,
so the end-point values are not "taken exactly from the snapshot at ta". -/
theorem C9_counterexample :
    ((get_slice_part snapA snapP false 0 21600 3600 0 3600 6 0).vals.map
        (fun v => v.xf ())) = some 160 ∧ snapA.x () = 170 := by
  refine ⟨?_, rfl⟩
  show some (min 160 (max (-10) (170:ℝ))) = some 160
  rw [max_eq_right (by norm_num), min_eq_left (by norm_num)]

theorem C9_slice_windows_witness :
    ((0:ℝ) < 3600 ∧ (21600:ℝ) = ((6:ℕ) : ℝ) * 3600) ∧
    ((slicesEmitted snapA snapP false 0 21600 3600 0 3600).length = 6 ∧
    (∀ i : ℕ,
      (get_slice_part snapA snapP false 0 21600 3600 0 3600 6 i).tf
          = some ((0:ℝ) + 21600 - (i:ℝ)*3600) ∧
      (get_slice_part snapA snapP false 0 21600 3600 0 3600 6 i).ti
          = some ((0:ℝ) + 21600 - ((i:ℝ)+1)*3600) ∧
      0 + 21600 - ((i:ℝ)+1)*3600 < 0 + 21600 - (i:ℝ)*3600) ∧
    ((sliceVals snapA snapP 0 21600 3600 6 0).pf = snapA.p ∧
      (sliceVals snapA snapP 0 21600 3600 6 0).tempf = snapA.t ∧
      (∀ j, (sliceVals snapA snapP 0 21600 3600 6 0).xf j
            = clip (snapA.x j) (-10) 160 ∧
        (sliceVals snapA snapP 0 21600 3600 6 0).yf j
            = clip (snapA.y j) 0 50)) ∧
    (2 ≤ 6 →
      (sliceVals snapA snapP 0 21600 3600 6 (6-1)).pi = snapP.p ∧
      (sliceVals snapA snapP 0 21600 3600 6 (6-1)).tempi = snapP.t ∧
      (∀ j, (sliceVals snapA snapP 0 21600 3600 6 (6-1)).xi j
            = clip (snapP.x j) (-10) 160 ∧
        (sliceVals snapA snapP 0 21600 3600 6 (6-1)).yi j
            = clip (snapP.y j) 0 50)) ∧
    (∀ i : ℕ, 0 < i → i + 1 < 6 →
      (∀ j, (sliceVals snapA snapP 0 21600 3600 6 i).pi j
            = coefai 0 21600 3600 i * snapA.p j
              + coefpi 0 21600 3600 i * snapP.p j ∧
        (sliceVals snapA snapP 0 21600 3600 6 i).tempi j
            = coefai 0 21600 3600 i * snapA.t j
              + coefpi 0 21600 3600 i * snapP.t j ∧
        (sliceVals snapA snapP 0 21600 3600 6 i).xi j
            = clip (coefai 0 21600 3600 i * snapA.x j
                + coefpi 0 21600 3600 i * snapP.x j) (-10) 160) ∧
      coefai 0 21600 3600 i + coefpi 0 21600 3600 i = 1) ∧
    (∀ i : ℕ,
      (get_slice_part snapA snapP true 0 21600 3600 0 3600 6 i).ti = none ∧
      (get_slice_part snapA snapP true 0 21600 3600 0 3600 6 i).tf = none)) :=
  ⟨⟨by norm_num, by push_cast; norm_num⟩,
    C9_slice_windows snapA snapP false 0 21600 3600 0 3600 6
      (by norm_num) (by push_cast; norm_num)⟩

/-! ## Basic lemmas about the per-parcel handlers -/

lemma setSlot_self {N : ℕ} (src : Fin 6 → Fin N → Slot) (k : Fin 6)
    (i0 : Fin N) (v : Slot) : setSlot src k i0 v k i0 = v := by
  simp [setSlot]

lemma setSlot_slot_ne {N : ℕ} (src : Fin 6 → Fin N → Slot) (k k' : Fin 6)
    (i0 : Fin N) (v : Slot) (h : k' ≠ k) : setSlot src k i0 v k' = src k' := by
  simp [setSlot, Function.update_noteq h]

lemma setSlot_parcel_ne {N : ℕ} (src : Fin 6 → Fin N → Slot) (k k' : Fin 6)
    (i0 j : Fin N) (v : Slot) (h : j ≠ i0) :
    setSlot src k i0 v k' j = src k' j := by
  by_cases hk : k' = k
  · subst hk
    simp [setSlot, Function.update_noteq h]
  · simp [setSlot, Function.update_noteq hk]

lemma or_and_eq_of_and_eq_zero (f c m : ℕ) (h : c &&& m = 0) :
    (f ||| c) &&& m = f &&& m := by
  apply Nat.eq_of_testBit_eq
  intro b
  have hb : (c &&& m).testBit b = false := by rw [h]; simp
  simp only [Nat.testBit_and, Nat.testBit_or] at hb ⊢
  cases hcf : f.testBit b <;> cases hcc : c.testBit b <;>
    cases hcm : m.testBit b <;> simp_all

lemma or_and_ne_zero (f c m : ℕ) (h : c &&& m ≠ 0) :
    (f ||| c) &&& m ≠ 0 := by
  intro h0
  apply h
  apply Nat.eq_of_testBit_eq
  intro b
  have h0b : ((f ||| c) &&& m).testBit b = false := by rw [h0]; simp
  simp only [Nat.testBit_and, Nat.testBit_or] at h0b
  simp only [Nat.testBit_and, Nat.zero_testBit]
  cases hcf : f.testBit b <;> cases hcc : c.testBit b <;>
    cases hcm : m.testBit b <;> simp_all

lemma testBit_or_update_mono {N : ℕ} (f : Fin N → ℕ) (i0 : Fin N) (c : ℕ)
    (j : Fin N) (b : ℕ) (h : (f j).testBit b = true) :
    ((Function.update f i0 (f i0 ||| c)) j).testBit b = true := by
  by_cases hj : j = i0
  · subst hj
    simp [Function.update_same, Nat.testBit_or, h]
  · simp [Function.update_noteq hj, h]

lemma exiter_chi {nlat nlon nreg N : ℕ} (itime : ℤ) (x y p t : ℝ)
    (i0 : Fin N) (irs : ℤ) (rr : Fin 2 → Fin 2 → ℝ) (P : Prod0 nlat nlon nreg N) :
    (exiter itime x y p t i0 irs rr P).chi = P.chi := by
  rw [exiter]
  split <;> rfl

lemma exiter_passed {nlat nlon nreg N : ℕ} (itime : ℤ) (x y p t : ℝ)
    (i0 : Fin N) (irs : ℤ) (rr : Fin 2 → Fin 2 → ℝ) (P : Prod0 nlat nlon nreg N) :
    (exiter itime x y p t i0 irs rr P).passed = P.passed := by
  rw [exiter]
  split <;> rfl

lemma exiter_source {nlat nlon nreg N : ℕ} (itime : ℤ) (x y p t : ℝ)
    (i0 : Fin N) (irs : ℤ) (rr : Fin 2 → Fin 2 → ℝ) (P : Prod0 nlat nlon nreg N) :
    (exiter itime x y p t i0 irs rr P).source = P.source := by
  rw [exiter]
  split <;> rfl

lemma exiter_pl {nlat nlon nreg N : ℕ} (itime : ℤ) (x y p t : ℝ)
    (i0 : Fin N) (irs : ℤ) (rr : Fin 2 → Fin 2 → ℝ) (P : Prod0 nlat nlon nreg N) :
    (exiter itime x y p t i0 irs rr P).pl = P.pl := by
  rw [exiter]
  split <;> rfl

lemma exiter_dead {nlat nlon nreg N : ℕ} (itime : ℤ) (x y p t : ℝ)
    (i0 : Fin N) (irs : ℤ) (rr : Fin 2 → Fin 2 → ℝ) (P : Prod0 nlat nlon nreg N)
    (h : P.flag_source i0 &&& I_DEAD ≠ 0) :
    exiter itime x y p t i0 irs rr P = P := by
  rw [exiter, if_neg h]

lemma exiter_flag_mono {nlat nlon nreg N : ℕ} (itime : ℤ) (x y p t : ℝ)
    (i0 : Fin N) (irs : ℤ) (rr : Fin 2 → Fin 2 → ℝ) (P : Prod0 nlat nlon nreg N)
    (j : Fin N) (b : ℕ) (h : (P.flag_source j).testBit b = true) :
    ((exiter itime x y p t i0 irs rr P).flag_source j).testBit b = true := by
  rw [exiter]
  split
  · exact testBit_or_update_mono _ _ _ _ _ h
  · exact h

lemma radada_chi {nlat nlon nreg N : ℕ} (itime : ℤ) (x y p t : ℝ)
    (i0 : Fin N) (irs : ℤ) (P : Prod0 nlat nlon nreg N) :
    (radada itime x y p t i0 irs P).chi = P.chi := by
  rw [radada]
  split <;> rfl

lemma radada_passed {nlat nlon nreg N : ℕ} (itime : ℤ) (x y p t : ℝ)
    (i0 : Fin N) (irs : ℤ) (P : Prod0 nlat nlon nreg N) :
    (radada itime x y p t i0 irs P).passed = P.passed := by
  rw [radada]
  split <;> rfl

lemma radada_source {nlat nlon nreg N : ℕ} (itime : ℤ) (x y p t : ℝ)
    (i0 : Fin N) (irs : ℤ) (P : Prod0 nlat nlon nreg N) :
    (radada itime x y p t i0 irs P).source = P.source := by
  rw [radada]
  split <;> rfl

lemma radada_pl {nlat nlon nreg N : ℕ} (itime : ℤ) (x y p t : ℝ)
    (i0 : Fin N) (irs : ℤ) (P : Prod0 nlat nlon nreg N) :
    (radada itime x y p t i0 irs P).pl = P.pl := by
  rw [radada]
  split <;> rfl

lemma radada_dead {nlat nlon nreg N : ℕ} (itime : ℤ) (x y p t : ℝ)
    (i0 : Fin N) (irs : ℤ) (P : Prod0 nlat nlon nreg N)
    (h : P.flag_source i0 &&& I_DEAD ≠ 0) :
    radada itime x y p t i0 irs P = P := by
  rw [radada, if_neg h]

lemma radada_flag_mono {nlat nlon nreg N : ℕ} (itime : ℤ) (x y p t : ℝ)
    (i0 : Fin N) (irs : ℤ) (P : Prod0 nlat nlon nreg N)
    (j : Fin N) (b : ℕ) (h : (P.flag_source j).testBit b = true) :
    ((radada itime x y p t i0 irs P).flag_source j).testBit b = true := by
  rw [radada]
  split
  · exact testBit_or_update_mono _ _ _ _ _ h
  · exact h

lemma deadborne_chi {nlat nlon nreg N : ℕ} (x y p t : ℝ) (i0 : Fin N)
    (P : Prod0 nlat nlon nreg N) : (deadborne x y p t i0 P).chi = P.chi := rfl

lemma deadborne_passed {nlat nlon nreg N : ℕ} (x y p t : ℝ) (i0 : Fin N)
    (P : Prod0 nlat nlon nreg N) : (deadborne x y p t i0 P).passed = P.passed := rfl

lemma deadborne_source {nlat nlon nreg N : ℕ} (x y p t : ℝ) (i0 : Fin N)
    (P : Prod0 nlat nlon nreg N) : (deadborne x y p t i0 P).source = P.source := rfl

lemma deadborne_pl {nlat nlon nreg N : ℕ} (x y p t : ℝ) (i0 : Fin N)
    (P : Prod0 nlat nlon nreg N) : (deadborne x y p t i0 P).pl = P.pl := rfl

lemma deadborne_flag_mono {nlat nlon nreg N : ℕ} (x y p t : ℝ) (i0 : Fin N)
    (P : Prod0 nlat nlon nreg N) (j : Fin N) (b : ℕ)
    (h : (P.flag_source j).testBit b = true) :
    ((deadborne x y p t i0 P).flag_source j).testBit b = true :=
  testBit_or_update_mono _ _ _ _ _ h

lemma ageSweep_chi {nlat nlon nreg N : ℕ} (itime : ℤ) (x y p t : ℝ)
    (i0 : Fin N) (irs : ℤ) (P : Prod0 nlat nlon nreg N) :
    (ageSweep itime x y p t i0 irs P).chi = P.chi := by
  rw [ageSweep]
  split <;> rfl

lemma ageSweep_passed {nlat nlon nreg N : ℕ} (itime : ℤ) (x y p t : ℝ)
    (i0 : Fin N) (irs : ℤ) (P : Prod0 nlat nlon nreg N) :
    (ageSweep itime x y p t i0 irs P).passed = P.passed := by
  rw [ageSweep]
  split <;> rfl

lemma ageSweep_source {nlat nlon nreg N : ℕ} (itime : ℤ) (x y p t : ℝ)
    (i0 : Fin N) (irs : ℤ) (P : Prod0 nlat nlon nreg N) :
    (ageSweep itime x y p t i0 irs P).source = P.source := by
  rw [ageSweep]
  split <;> rfl

lemma ageSweep_pl {nlat nlon nreg N : ℕ} (itime : ℤ) (x y p t : ℝ)
    (i0 : Fin N) (irs : ℤ) (P : Prod0 nlat nlon nreg N) :
    (ageSweep itime x y p t i0 irs P).pl = P.pl := by
  rw [ageSweep]
  split <;> rfl

lemma ageSweep_flag_mono {nlat nlon nreg N : ℕ} (itime : ℤ) (x y p t : ℝ)
    (i0 : Fin N) (irs : ℤ) (P : Prod0 nlat nlon nreg N)
    (j : Fin N) (b : ℕ) (h : (P.flag_source j).testBit b = true) :
    ((ageSweep itime x y p t i0 irs P).flag_source j).testBit b = true := by
  rw [ageSweep]
  split
  · exact testBit_or_update_mono _ _ _ _ _ h
  · exact h


/-! ## Lemmas about the ratchet cascade -/

section CascadeLemmas

variable {nlat nlon nreg N : ℕ} {oldp newp : ℤ} {thr : ℝ} {k : Fin 6} {setHit : Bool}
  {itime : ℤ} {xi yi pi ti : ℝ} {i0 : Fin N} {irs : ℤ}
  {Pn : Prod0 nlat nlon nreg N × (Fin 6 → ℕ)}

lemma rungStep_eq :
    rungStep oldp newp thr k setHit itime xi yi pi ti i0 irs Pn
      = if Pn.1.passed i0 = oldp ∧ Pn.1.chi i0 < thr then
          (fireRung k newp setHit itime xi yi pi ti i0 irs Pn.1, bump Pn.2 k)
        else Pn := rfl

lemma rungStep_fired (h : Pn.1.passed i0 = oldp ∧ Pn.1.chi i0 < thr) :
    rungStep oldp newp thr k setHit itime xi yi pi ti i0 irs Pn
      = (fireRung k newp setHit itime xi yi pi ti i0 irs Pn.1, bump Pn.2 k) := by
  rw [rungStep_eq, if_pos h]

lemma rungStep_not_fired (h : ¬(Pn.1.passed i0 = oldp ∧ Pn.1.chi i0 < thr)) :
    rungStep oldp newp thr k setHit itime xi yi pi ti i0 irs Pn = Pn := by
  rw [rungStep_eq, if_neg h]

lemma fireRung_passed_self (P : Prod0 nlat nlon nreg N) :
    (fireRung k newp setHit itime xi yi pi ti i0 irs P).passed i0 = newp := by
  simp [fireRung]

lemma fireRung_passed_ne (P : Prod0 nlat nlon nreg N) (j : Fin N) (h : j ≠ i0) :
    (fireRung k newp setHit itime xi yi pi ti i0 irs P).passed j = P.passed j := by
  simp [fireRung, Function.update_noteq h]

lemma fireRung_chi (P : Prod0 nlat nlon nreg N) :
    (fireRung k newp setHit itime xi yi pi ti i0 irs P).chi = P.chi := rfl

lemma fireRung_source (P : Prod0 nlat nlon nreg N) :
    (fireRung k newp setHit itime xi yi pi ti i0 irs P).source = P.source := rfl

lemma fireRung_pl (P : Prod0 nlat nlon nreg N) :
    (fireRung k newp setHit itime xi yi pi ti i0 irs P).pl = P.pl := rfl

lemma fireRung_src_self (P : Prod0 nlat nlon nreg N) :
    (fireRung k newp setHit itime xi yi pi ti i0 irs P).src k i0
      = ⟨xi, yi, pi, ti, ((irs - itime : ℤ) : ℝ)⟩ := by
  simp [fireRung, setSlot]

lemma fireRung_src_slot_ne (P : Prod0 nlat nlon nreg N) (v : Fin 6) (h : v ≠ k) :
    (fireRung k newp setHit itime xi yi pi ti i0 irs P).src v = P.src v := by
  simp only [fireRung]
  exact setSlot_slot_ne _ _ _ _ _ h

lemma fireRung_src_parcel_ne (P : Prod0 nlat nlon nreg N) (v : Fin 6) (j : Fin N)
    (h : j ≠ i0) :
    (fireRung k newp setHit itime xi yi pi ti i0 irs P).src v j = P.src v j := by
  simp only [fireRung]
  exact setSlot_parcel_ne _ _ _ _ _ _ h

lemma fireRung_flag_false (P : Prod0 nlat nlon nreg N) :
    (fireRung k newp false itime xi yi pi ti i0 irs P).flag_source
      = P.flag_source := rfl

lemma fireRung_flag_true (P : Prod0 nlat nlon nreg N) :
    (fireRung k newp true itime xi yi pi ti i0 irs P).flag_source
      = Function.update P.flag_source i0 (P.flag_source i0 ||| I_HIT) := rfl

lemma rungStep_chi :
    (rungStep oldp newp thr k setHit itime xi yi pi ti i0 irs Pn).1.chi = Pn.1.chi := by
  rw [rungStep_eq]
  split <;> rfl

lemma rungStep_source :
    (rungStep oldp newp thr k setHit itime xi yi pi ti i0 irs Pn).1.source
      = Pn.1.source := by
  rw [rungStep_eq]
  split <;> rfl

lemma rungStep_pl :
    (rungStep oldp newp thr k setHit itime xi yi pi ti i0 irs Pn).1.pl = Pn.1.pl := by
  rw [rungStep_eq]
  split <;> rfl

lemma rungStep_passed_cases :
    ((rungStep oldp newp thr k setHit itime xi yi pi ti i0 irs Pn).1.passed i0 = newp ∧
      Pn.1.passed i0 = oldp ∧ Pn.1.chi i0 < thr) ∨
    rungStep oldp newp thr k setHit itime xi yi pi ti i0 irs Pn = Pn := by
  rw [rungStep_eq]
  split
  · rename_i hc
    exact Or.inl ⟨fireRung_passed_self _, hc.1, hc.2⟩
  · exact Or.inr rfl

lemma rungStep_passed_le (h : newp ≤ oldp) (j : Fin N) :
    (rungStep oldp newp thr k setHit itime xi yi pi ti i0 irs Pn).1.passed j
      ≤ Pn.1.passed j := by
  rw [rungStep_eq]
  split
  · rename_i hc
    by_cases hj : j = i0
    · show (fireRung k newp setHit itime xi yi pi ti i0 irs Pn.1).passed j
        ≤ Pn.1.passed j
      rw [hj, fireRung_passed_self, hc.1]
      exact h
    · show (fireRung k newp setHit itime xi yi pi ti i0 irs Pn.1).passed j
        ≤ Pn.1.passed j
      rw [fireRung_passed_ne _ _ hj]
  · exact le_refl _

lemma rungStep_passed_ne_parcel (j : Fin N) (h : j ≠ i0) :
    (rungStep oldp newp thr k setHit itime xi yi pi ti i0 irs Pn).1.passed j
      = Pn.1.passed j := by
  rw [rungStep_eq]
  split
  · exact fireRung_passed_ne _ _ h
  · rfl

lemma rungStep_passed_mem (hnew : rungVals newp) (j : Fin N)
    (h : rungVals (Pn.1.passed j)) :
    rungVals ((rungStep oldp newp thr k setHit itime xi yi pi ti i0 irs Pn).1.passed j) := by
  rw [rungStep_eq]
  split
  · by_cases hj : j = i0
    · show rungVals ((fireRung k newp setHit itime xi yi pi ti i0 irs Pn.1).passed j)
      rw [hj, fireRung_passed_self]
      exact hnew
    · show rungVals ((fireRung k newp setHit itime xi yi pi ti i0 irs Pn.1).passed j)
      rw [fireRung_passed_ne _ _ hj]
      exact h
  · exact h

lemma rungStep_src_slot_ne (v : Fin 6) (h : v ≠ k) :
    (rungStep oldp newp thr k setHit itime xi yi pi ti i0 irs Pn).1.src v
      = Pn.1.src v := by
  rw [rungStep_eq]
  split
  · exact fireRung_src_slot_ne _ _ h
  · rfl

lemma rungStep_src_parcel_ne (v : Fin 6) (j : Fin N) (h : j ≠ i0) :
    (rungStep oldp newp thr k setHit itime xi yi pi ti i0 irs Pn).1.src v j
      = Pn.1.src v j := by
  rw [rungStep_eq]
  split
  · exact fireRung_src_parcel_ne _ _ _ h
  · rfl

lemma rungStep_counts_ne (v : Fin 6) (h : v ≠ k) :
    (rungStep oldp newp thr k setHit itime xi yi pi ti i0 irs Pn).2 v = Pn.2 v := by
  rw [rungStep_eq]
  split
  · show bump Pn.2 k v = Pn.2 v
    simp [bump, Function.update_noteq h]
  · rfl

lemma rungStep_flag_mono (j : Fin N) (b : ℕ)
    (h : (Pn.1.flag_source j).testBit b = true) :
    ((rungStep oldp newp thr k setHit itime xi yi pi ti i0 irs Pn).1.flag_source j).testBit b
      = true := by
  rw [rungStep_eq]
  split
  · show ((fireRung k newp setHit itime xi yi pi ti i0 irs Pn.1).flag_source j).testBit b = true
    cases setHit
    · rw [fireRung_flag_false]
      exact h
    · rw [fireRung_flag_true]
      exact testBit_or_update_mono _ _ _ _ _ h
  · exact h

lemma rungStep_flag_and (j : Fin N) (m : ℕ) (hm : I_HIT &&& m = 0) :
    (rungStep oldp newp thr k setHit itime xi yi pi ti i0 irs Pn).1.flag_source j &&& m
      = Pn.1.flag_source j &&& m := by
  rw [rungStep_eq]
  split
  · show (fireRung k newp setHit itime xi yi pi ti i0 irs Pn.1).flag_source j &&& m
      = Pn.1.flag_source j &&& m
    cases setHit
    · rw [fireRung_flag_false]
    · rw [fireRung_flag_true]
      by_cases hj : j = i0
      · subst hj
        rw [Function.update_same]
        exact or_and_eq_of_and_eq_zero _ _ _ hm
      · rw [Function.update_noteq hj]
  · rfl

lemma rungStep_flag_false_all :
    (rungStep oldp newp thr k false itime xi yi pi ti i0 irs Pn).1.flag_source
      = Pn.1.flag_source := by
  rw [rungStep_eq]
  split
  · exact fireRung_flag_false _
  · rfl

lemma cascade_chi :
    (cascade itime xi yi pi ti i0 irs Pn).1.chi = Pn.1.chi := by
  simp only [cascade]
  rw [rungStep_chi, rungStep_chi, rungStep_chi, rungStep_chi, rungStep_chi]

lemma cascade_source :
    (cascade itime xi yi pi ti i0 irs Pn).1.source = Pn.1.source := by
  simp only [cascade]
  rw [rungStep_source, rungStep_source, rungStep_source, rungStep_source, rungStep_source]

lemma cascade_pl :
    (cascade itime xi yi pi ti i0 irs Pn).1.pl = Pn.1.pl := by
  simp only [cascade]
  rw [rungStep_pl, rungStep_pl, rungStep_pl, rungStep_pl, rungStep_pl]

lemma cascade_passed_le (j : Fin N) :
    (cascade itime xi yi pi ti i0 irs Pn).1.passed j ≤ Pn.1.passed j := by
  simp only [cascade]
  calc (rungStep 3 1 0.1 5 false itime xi yi pi ti i0 irs
        (rungStep 5 3 0.3 4 false itime xi yi pi ti i0 irs
          (rungStep 7 5 0.5 3 false itime xi yi pi ti i0 irs
            (rungStep 9 7 0.7 2 false itime xi yi pi ti i0 irs
              (rungStep 10 9 0.9 1 true itime xi yi pi ti i0 irs Pn))))).1.passed j
      ≤ (rungStep 5 3 0.3 4 false itime xi yi pi ti i0 irs
          (rungStep 7 5 0.5 3 false itime xi yi pi ti i0 irs
            (rungStep 9 7 0.7 2 false itime xi yi pi ti i0 irs
              (rungStep 10 9 0.9 1 true itime xi yi pi ti i0 irs Pn)))).1.passed j :=
        rungStep_passed_le (by norm_num) j
    _ ≤ (rungStep 7 5 0.5 3 false itime xi yi pi ti i0 irs
            (rungStep 9 7 0.7 2 false itime xi yi pi ti i0 irs
              (rungStep 10 9 0.9 1 true itime xi yi pi ti i0 irs Pn))).1.passed j :=
        rungStep_passed_le (by norm_num) j
    _ ≤ (rungStep 9 7 0.7 2 false itime xi yi pi ti i0 irs
              (rungStep 10 9 0.9 1 true itime xi yi pi ti i0 irs Pn)).1.passed j :=
        rungStep_passed_le (by norm_num) j
    _ ≤ (rungStep 10 9 0.9 1 true itime xi yi pi ti i0 irs Pn).1.passed j :=
        rungStep_passed_le (by norm_num) j
    _ ≤ Pn.1.passed j := rungStep_passed_le (by norm_num) j

lemma cascade_passed_ne_parcel (j : Fin N) (h : j ≠ i0) :
    (cascade itime xi yi pi ti i0 irs Pn).1.passed j = Pn.1.passed j := by
  simp only [cascade]
  rw [rungStep_passed_ne_parcel _ h, rungStep_passed_ne_parcel _ h,
    rungStep_passed_ne_parcel _ h, rungStep_passed_ne_parcel _ h,
    rungStep_passed_ne_parcel _ h]

lemma cascade_passed_mem (j : Fin N) (h : rungVals (Pn.1.passed j)) :
    rungVals ((cascade itime xi yi pi ti i0 irs Pn).1.passed j) := by
  simp only [cascade]
  apply rungStep_passed_mem (by rw [rungVals]; tauto) j
  apply rungStep_passed_mem (by rw [rungVals]; tauto) j
  apply rungStep_passed_mem (by rw [rungVals]; tauto) j
  apply rungStep_passed_mem (by rw [rungVals]; tauto) j
  apply rungStep_passed_mem (by rw [rungVals]; tauto) j
  exact h

lemma cascade_src_parcel_ne (v : Fin 6) (j : Fin N) (h : j ≠ i0) :
    (cascade itime xi yi pi ti i0 irs Pn).1.src v j = Pn.1.src v j := by
  simp only [cascade]
  rw [rungStep_src_parcel_ne _ _ h, rungStep_src_parcel_ne _ _ h,
    rungStep_src_parcel_ne _ _ h, rungStep_src_parcel_ne _ _ h,
    rungStep_src_parcel_ne _ _ h]

lemma cascade_flag_mono (j : Fin N) (b : ℕ)
    (h : (Pn.1.flag_source j).testBit b = true) :
    ((cascade itime xi yi pi ti i0 irs Pn).1.flag_source j).testBit b = true := by
  simp only [cascade]
  apply rungStep_flag_mono
  apply rungStep_flag_mono
  apply rungStep_flag_mono
  apply rungStep_flag_mono
  apply rungStep_flag_mono
  exact h

lemma cascade_flag_and (j : Fin N) (m : ℕ) (hm : I_HIT &&& m = 0) :
    (cascade itime xi yi pi ti i0 irs Pn).1.flag_source j &&& m
      = Pn.1.flag_source j &&& m := by
  simp only [cascade]
  rw [rungStep_flag_and _ _ hm, rungStep_flag_and _ _ hm, rungStep_flag_and _ _ hm,
    rungStep_flag_and _ _ hm, rungStep_flag_and _ _ hm]

end CascadeLemmas

section CascadeCross

variable {nlat nlon nreg N : ℕ} {itime : ℤ} {xi yi pi ti : ℝ} {i0 : Fin N}
  {irs : ℤ} {Pn : Prod0 nlat nlon nreg N × (Fin 6 → ℕ)}

lemma cascade_cross1 (hentry : 10 ≤ Pn.1.passed i0)
    (hexit : (cascade itime xi yi pi ti i0 irs Pn).1.passed i0 ≤ 9) :
    (cascade itime xi yi pi ti i0 irs Pn).1.chi i0 < 0.9 ∧
    (cascade itime xi yi pi ti i0 irs Pn).1.src 1 i0
      = ⟨xi, yi, pi, ti, ((irs - itime : ℤ) : ℝ)⟩ ∧
    (cascade itime xi yi pi ti i0 irs Pn).2 1 = Pn.2 1 + 1 ∧
    (cascade itime xi yi pi ti i0 irs Pn).1.flag_source i0
      = Pn.1.flag_source i0 ||| I_HIT := by
  by_cases h1 : Pn.1.passed i0 = 10 ∧ Pn.1.chi i0 < 0.9
  · have e1 : rungStep 10 9 0.9 1 true itime xi yi pi ti i0 irs Pn
        = (fireRung 1 9 true itime xi yi pi ti i0 irs Pn.1, bump Pn.2 1) :=
      rungStep_fired h1
    refine ⟨?_, ?_, ?_, ?_⟩
    · rw [cascade_chi]
      exact h1.2
    · simp only [cascade]
      rw [rungStep_src_slot_ne _ (by decide), rungStep_src_slot_ne _ (by decide),
        rungStep_src_slot_ne _ (by decide), rungStep_src_slot_ne _ (by decide), e1]
      show (fireRung 1 9 true itime xi yi pi ti i0 irs Pn.1).src 1 i0 = _
      exact fireRung_src_self _
    · simp only [cascade]
      rw [rungStep_counts_ne _ (by decide), rungStep_counts_ne _ (by decide),
        rungStep_counts_ne _ (by decide), rungStep_counts_ne _ (by decide), e1]
      show bump Pn.2 1 1 = Pn.2 1 + 1
      simp [bump]
    · simp only [cascade]
      rw [rungStep_flag_false_all, rungStep_flag_false_all, rungStep_flag_false_all,
        rungStep_flag_false_all, e1]
      show (fireRung 1 9 true itime xi yi pi ti i0 irs Pn.1).flag_source i0 = _
      rw [fireRung_flag_true, Function.update_same]
  · exfalso
    have e1 : rungStep 10 9 0.9 1 true itime xi yi pi ti i0 irs Pn = Pn :=
      rungStep_not_fired h1
    have e2 : rungStep 9 7 0.7 2 false itime xi yi pi ti i0 irs Pn = Pn := by
      apply rungStep_not_fired
      intro hc
      exact absurd hc.1 (by omega)
    have e3 : rungStep 7 5 0.5 3 false itime xi yi pi ti i0 irs Pn = Pn := by
      apply rungStep_not_fired
      intro hc
      exact absurd hc.1 (by omega)
    have e4 : rungStep 5 3 0.3 4 false itime xi yi pi ti i0 irs Pn = Pn := by
      apply rungStep_not_fired
      intro hc
      exact absurd hc.1 (by omega)
    have e5 : rungStep 3 1 0.1 5 false itime xi yi pi ti i0 irs Pn = Pn := by
      apply rungStep_not_fired
      intro hc
      exact absurd hc.1 (by omega)
    have hfin : (cascade itime xi yi pi ti i0 irs Pn).1.passed i0 = Pn.1.passed i0 := by
      simp only [cascade]
      rw [e1, e2, e3, e4, e5]
    omega

lemma cascade_cross2 (hentry : 9 ≤ Pn.1.passed i0)
    (hexit : (cascade itime xi yi pi ti i0 irs Pn).1.passed i0 ≤ 7) :
    (cascade itime xi yi pi ti i0 irs Pn).1.chi i0 < 0.7 ∧
    (cascade itime xi yi pi ti i0 irs Pn).1.src 2 i0
      = ⟨xi, yi, pi, ti, ((irs - itime : ℤ) : ℝ)⟩ ∧
    (cascade itime xi yi pi ti i0 irs Pn).2 2 = Pn.2 2 + 1 := by
  have hs1 : 9 ≤ (rungStep 10 9 0.9 1 true itime xi yi pi ti i0 irs Pn).1.passed i0 := by
    by_cases hf : Pn.1.passed i0 = 10 ∧ Pn.1.chi i0 < 0.9
    · rw [rungStep_fired hf]
      show 9 ≤ (fireRung 1 9 true itime xi yi pi ti i0 irs Pn.1).passed i0
      rw [fireRung_passed_self]
    · rw [rungStep_not_fired hf]
      exact hentry
  by_cases h2 : (rungStep 10 9 0.9 1 true itime xi yi pi ti i0 irs Pn).1.passed i0 = 9 ∧
      (rungStep 10 9 0.9 1 true itime xi yi pi ti i0 irs Pn).1.chi i0 < 0.7
  · have e2 : rungStep 9 7 0.7 2 false itime xi yi pi ti i0 irs
        (rungStep 10 9 0.9 1 true itime xi yi pi ti i0 irs Pn)
        = (fireRung 2 7 false itime xi yi pi ti i0 irs
            (rungStep 10 9 0.9 1 true itime xi yi pi ti i0 irs Pn).1,
          bump (rungStep 10 9 0.9 1 true itime xi yi pi ti i0 irs Pn).2 2) :=
      rungStep_fired h2
    refine ⟨?_, ?_, ?_⟩
    · rw [cascade_chi]
      have := h2.2
      rw [rungStep_chi] at this
      exact this
    · simp only [cascade]
      rw [rungStep_src_slot_ne _ (by decide), rungStep_src_slot_ne _ (by decide),
        rungStep_src_slot_ne _ (by decide), e2]
      show (fireRung 2 7 false itime xi yi pi ti i0 irs
        (rungStep 10 9 0.9 1 true itime xi yi pi ti i0 irs Pn).1).src 2 i0 = _
      exact fireRung_src_self _
    · simp only [cascade]
      rw [rungStep_counts_ne _ (by decide), rungStep_counts_ne _ (by decide),
        rungStep_counts_ne _ (by decide), e2]
      show bump (rungStep 10 9 0.9 1 true itime xi yi pi ti i0 irs Pn).2 2 2
        = Pn.2 2 + 1
      simp only [bump, Function.update_same]
      rw [rungStep_counts_ne _ (by decide)]
  · exfalso
    have e2 : rungStep 9 7 0.7 2 false itime xi yi pi ti i0 irs
        (rungStep 10 9 0.9 1 true itime xi yi pi ti i0 irs Pn)
        = rungStep 10 9 0.9 1 true itime xi yi pi ti i0 irs Pn :=
      rungStep_not_fired h2
    have e3 : rungStep 7 5 0.5 3 false itime xi yi pi ti i0 irs
        (rungStep 10 9 0.9 1 true itime xi yi pi ti i0 irs Pn)
        = rungStep 10 9 0.9 1 true itime xi yi pi ti i0 irs Pn := by
      apply rungStep_not_fired
      intro hc
      exact absurd hc.1 (by omega)
    have e4 : rungStep 5 3 0.3 4 false itime xi yi pi ti i0 irs
        (rungStep 10 9 0.9 1 true itime xi yi pi ti i0 irs Pn)
        = rungStep 10 9 0.9 1 true itime xi yi pi ti i0 irs Pn := by
      apply rungStep_not_fired
      intro hc
      exact absurd hc.1 (by omega)
    have e5 : rungStep 3 1 0.1 5 false itime xi yi pi ti i0 irs
        (rungStep 10 9 0.9 1 true itime xi yi pi ti i0 irs Pn)
        = rungStep 10 9 0.9 1 true itime xi yi pi ti i0 irs Pn := by
      apply rungStep_not_fired
      intro hc
      exact absurd hc.1 (by omega)
    have hfin : (cascade itime xi yi pi ti i0 irs Pn).1.passed i0
        = (rungStep 10 9 0.9 1 true itime xi yi pi ti i0 irs Pn).1.passed i0 := by
      simp only [cascade]
      rw [e2, e3, e4, e5]
    omega

end CascadeCross

section CascadeCrossDeep

variable {nlat nlon nreg N : ℕ} {itime : ℤ} {xi yi pi ti : ℝ} {i0 : Fin N}
  {irs : ℤ} {Pn : Prod0 nlat nlon nreg N × (Fin 6 → ℕ)}

lemma cascade_cross3 (hentry : 7 ≤ Pn.1.passed i0)
    (hexit : (cascade itime xi yi pi ti i0 irs Pn).1.passed i0 ≤ 5) :
    (cascade itime xi yi pi ti i0 irs Pn).1.chi i0 < 0.5 ∧
    (cascade itime xi yi pi ti i0 irs Pn).1.src 3 i0
      = ⟨xi, yi, pi, ti, ((irs - itime : ℤ) : ℝ)⟩ ∧
    (cascade itime xi yi pi ti i0 irs Pn).2 3 = Pn.2 3 + 1 := by
  have hs1 : 7 ≤ (rungStep 10 9 0.9 1 true itime xi yi pi ti i0 irs Pn).1.passed i0 := by
    by_cases hf : Pn.1.passed i0 = 10 ∧ Pn.1.chi i0 < 0.9
    · rw [rungStep_fired hf]
      show 7 ≤ (fireRung 1 9 true itime xi yi pi ti i0 irs Pn.1).passed i0
      rw [fireRung_passed_self]
      omega
    · rw [rungStep_not_fired hf]
      exact hentry
  have hs2 : 7 ≤ (rungStep 9 7 0.7 2 false itime xi yi pi ti i0 irs
      (rungStep 10 9 0.9 1 true itime xi yi pi ti i0 irs Pn)).1.passed i0 := by
    by_cases hf : (rungStep 10 9 0.9 1 true itime xi yi pi ti i0 irs Pn).1.passed i0 = 9 ∧
        (rungStep 10 9 0.9 1 true itime xi yi pi ti i0 irs Pn).1.chi i0 < 0.7
    · rw [rungStep_fired hf]
      show 7 ≤ (fireRung 2 7 false itime xi yi pi ti i0 irs
        (rungStep 10 9 0.9 1 true itime xi yi pi ti i0 irs Pn).1).passed i0
      rw [fireRung_passed_self]
    · rw [rungStep_not_fired hf]
      exact hs1
  by_cases h3 : (rungStep 9 7 0.7 2 false itime xi yi pi ti i0 irs
      (rungStep 10 9 0.9 1 true itime xi yi pi ti i0 irs Pn)).1.passed i0 = 7 ∧
      (rungStep 9 7 0.7 2 false itime xi yi pi ti i0 irs
        (rungStep 10 9 0.9 1 true itime xi yi pi ti i0 irs Pn)).1.chi i0 < 0.5
  · have e3 : rungStep 7 5 0.5 3 false itime xi yi pi ti i0 irs
        (rungStep 9 7 0.7 2 false itime xi yi pi ti i0 irs
          (rungStep 10 9 0.9 1 true itime xi yi pi ti i0 irs Pn))
        = (fireRung 3 5 false itime xi yi pi ti i0 irs
            (rungStep 9 7 0.7 2 false itime xi yi pi ti i0 irs
              (rungStep 10 9 0.9 1 true itime xi yi pi ti i0 irs Pn)).1,
          bump (rungStep 9 7 0.7 2 false itime xi yi pi ti i0 irs
            (rungStep 10 9 0.9 1 true itime xi yi pi ti i0 irs Pn)).2 3) :=
      rungStep_fired h3
    refine ⟨?_, ?_, ?_⟩
    · rw [cascade_chi]
      have := h3.2
      rw [rungStep_chi, rungStep_chi] at this
      exact this
    · simp only [cascade]
      rw [rungStep_src_slot_ne _ (by decide), rungStep_src_slot_ne _ (by decide), e3]
      show (fireRung 3 5 false itime xi yi pi ti i0 irs
        (rungStep 9 7 0.7 2 false itime xi yi pi ti i0 irs
          (rungStep 10 9 0.9 1 true itime xi yi pi ti i0 irs Pn)).1).src 3 i0 = _
      exact fireRung_src_self _
    · simp only [cascade]
      rw [rungStep_counts_ne _ (by decide), rungStep_counts_ne _ (by decide), e3]
      show bump (rungStep 9 7 0.7 2 false itime xi yi pi ti i0 irs
        (rungStep 10 9 0.9 1 true itime xi yi pi ti i0 irs Pn)).2 3 3 = Pn.2 3 + 1
      simp only [bump, Function.update_same]
      rw [rungStep_counts_ne _ (by decide), rungStep_counts_ne _ (by decide)]
  · exfalso
    have e3 : rungStep 7 5 0.5 3 false itime xi yi pi ti i0 irs
        (rungStep 9 7 0.7 2 false itime xi yi pi ti i0 irs
          (rungStep 10 9 0.9 1 true itime xi yi pi ti i0 irs Pn))
        = rungStep 9 7 0.7 2 false itime xi yi pi ti i0 irs
          (rungStep 10 9 0.9 1 true itime xi yi pi ti i0 irs Pn) :=
      rungStep_not_fired h3
    have e4 : rungStep 5 3 0.3 4 false itime xi yi pi ti i0 irs
        (rungStep 9 7 0.7 2 false itime xi yi pi ti i0 irs
          (rungStep 10 9 0.9 1 true itime xi yi pi ti i0 irs Pn))
        = rungStep 9 7 0.7 2 false itime xi yi pi ti i0 irs
          (rungStep 10 9 0.9 1 true itime xi yi pi ti i0 irs Pn) := by
      apply rungStep_not_fired
      intro hc
      exact absurd hc.1 (by omega)
    have e5 : rungStep 3 1 0.1 5 false itime xi yi pi ti i0 irs
        (rungStep 9 7 0.7 2 false itime xi yi pi ti i0 irs
          (rungStep 10 9 0.9 1 true itime xi yi pi ti i0 irs Pn))
        = rungStep 9 7 0.7 2 false itime xi yi pi ti i0 irs
          (rungStep 10 9 0.9 1 true itime xi yi pi ti i0 irs Pn) := by
      apply rungStep_not_fired
      intro hc
      exact absurd hc.1 (by omega)
    have hfin : (cascade itime xi yi pi ti i0 irs Pn).1.passed i0
        = (rungStep 9 7 0.7 2 false itime xi yi pi ti i0 irs
            (rungStep 10 9 0.9 1 true itime xi yi pi ti i0 irs Pn)).1.passed i0 := by
      simp only [cascade]
      rw [e3, e4, e5]
    omega

lemma cascade_cross4 (hentry : 5 ≤ Pn.1.passed i0)
    (hexit : (cascade itime xi yi pi ti i0 irs Pn).1.passed i0 ≤ 3) :
    (cascade itime xi yi pi ti i0 irs Pn).1.chi i0 < 0.3 ∧
    (cascade itime xi yi pi ti i0 irs Pn).1.src 4 i0
      = ⟨xi, yi, pi, ti, ((irs - itime : ℤ) : ℝ)⟩ ∧
    (cascade itime xi yi pi ti i0 irs Pn).2 4 = Pn.2 4 + 1 := by
  have hs1 : 5 ≤ (rungStep 10 9 0.9 1 true itime xi yi pi ti i0 irs Pn).1.passed i0 := by
    by_cases hf : Pn.1.passed i0 = 10 ∧ Pn.1.chi i0 < 0.9
    · rw [rungStep_fired hf]
      show 5 ≤ (fireRung 1 9 true itime xi yi pi ti i0 irs Pn.1).passed i0
      rw [fireRung_passed_self]
      omega
    · rw [rungStep_not_fired hf]
      exact hentry
  have hs2 : 5 ≤ (rungStep 9 7 0.7 2 false itime xi yi pi ti i0 irs
      (rungStep 10 9 0.9 1 true itime xi yi pi ti i0 irs Pn)).1.passed i0 := by
    by_cases hf : (rungStep 10 9 0.9 1 true itime xi yi pi ti i0 irs Pn).1.passed i0 = 9 ∧
        (rungStep 10 9 0.9 1 true itime xi yi pi ti i0 irs Pn).1.chi i0 < 0.7
    · rw [rungStep_fired hf]
      show 5 ≤ (fireRung 2 7 false itime xi yi pi ti i0 irs
        (rungStep 10 9 0.9 1 true itime xi yi pi ti i0 irs Pn).1).passed i0
      rw [fireRung_passed_self]
      omega
    · rw [rungStep_not_fired hf]
      exact hs1
  have hs3 : 5 ≤ (rungStep 7 5 0.5 3 false itime xi yi pi ti i0 irs
      (rungStep 9 7 0.7 2 false itime xi yi pi ti i0 irs
        (rungStep 10 9 0.9 1 true itime xi yi pi ti i0 irs Pn))).1.passed i0 := by
    by_cases hf : (rungStep 9 7 0.7 2 false itime xi yi pi ti i0 irs
        (rungStep 10 9 0.9 1 true itime xi yi pi ti i0 irs Pn)).1.passed i0 = 7 ∧
        (rungStep 9 7 0.7 2 false itime xi yi pi ti i0 irs
          (rungStep 10 9 0.9 1 true itime xi yi pi ti i0 irs Pn)).1.chi i0 < 0.5
    · rw [rungStep_fired hf]
      show 5 ≤ (fireRung 3 5 false itime xi yi pi ti i0 irs
        (rungStep 9 7 0.7 2 false itime xi yi pi ti i0 irs
          (rungStep 10 9 0.9 1 true itime xi yi pi ti i0 irs Pn)).1).passed i0
      rw [fireRung_passed_self]
    · rw [rungStep_not_fired hf]
      exact hs2
  by_cases h4 : (rungStep 7 5 0.5 3 false itime xi yi pi ti i0 irs
      (rungStep 9 7 0.7 2 false itime xi yi pi ti i0 irs
        (rungStep 10 9 0.9 1 true itime xi yi pi ti i0 irs Pn))).1.passed i0 = 5 ∧
      (rungStep 7 5 0.5 3 false itime xi yi pi ti i0 irs
        (rungStep 9 7 0.7 2 false itime xi yi pi ti i0 irs
          (rungStep 10 9 0.9 1 true itime xi yi pi ti i0 irs Pn))).1.chi i0 < 0.3
  · have e4 : rungStep 5 3 0.3 4 false itime xi yi pi ti i0 irs
        (rungStep 7 5 0.5 3 false itime xi yi pi ti i0 irs
          (rungStep 9 7 0.7 2 false itime xi yi pi ti i0 irs
            (rungStep 10 9 0.9 1 true itime xi yi pi ti i0 irs Pn)))
        = (fireRung 4 3 false itime xi yi pi ti i0 irs
            (rungStep 7 5 0.5 3 false itime xi yi pi ti i0 irs
              (rungStep 9 7 0.7 2 false itime xi yi pi ti i0 irs
                (rungStep 10 9 0.9 1 true itime xi yi pi ti i0 irs Pn))).1,
          bump (rungStep 7 5 0.5 3 false itime xi yi pi ti i0 irs
            (rungStep 9 7 0.7 2 false itime xi yi pi ti i0 irs
              (rungStep 10 9 0.9 1 true itime xi yi pi ti i0 irs Pn))).2 4) :=
      rungStep_fired h4
    refine ⟨?_, ?_, ?_⟩
    · rw [cascade_chi]
      have := h4.2
      rw [rungStep_chi, rungStep_chi, rungStep_chi] at this
      exact this
    · simp only [cascade]
      rw [rungStep_src_slot_ne _ (by decide), e4]
      show (fireRung 4 3 false itime xi yi pi ti i0 irs
        (rungStep 7 5 0.5 3 false itime xi yi pi ti i0 irs
          (rungStep 9 7 0.7 2 false itime xi yi pi ti i0 irs
            (rungStep 10 9 0.9 1 true itime xi yi pi ti i0 irs Pn))).1).src 4 i0 = _
      exact fireRung_src_self _
    · simp only [cascade]
      rw [rungStep_counts_ne _ (by decide), e4]
      show bump (rungStep 7 5 0.5 3 false itime xi yi pi ti i0 irs
        (rungStep 9 7 0.7 2 false itime xi yi pi ti i0 irs
          (rungStep 10 9 0.9 1 true itime xi yi pi ti i0 irs Pn))).2 4 4 = Pn.2 4 + 1
      simp only [bump, Function.update_same]
      rw [rungStep_counts_ne _ (by decide), rungStep_counts_ne _ (by decide),
        rungStep_counts_ne _ (by decide)]
  · exfalso
    have e4 : rungStep 5 3 0.3 4 false itime xi yi pi ti i0 irs
        (rungStep 7 5 0.5 3 false itime xi yi pi ti i0 irs
          (rungStep 9 7 0.7 2 false itime xi yi pi ti i0 irs
            (rungStep 10 9 0.9 1 true itime xi yi pi ti i0 irs Pn)))
        = rungStep 7 5 0.5 3 false itime xi yi pi ti i0 irs
          (rungStep 9 7 0.7 2 false itime xi yi pi ti i0 irs
            (rungStep 10 9 0.9 1 true itime xi yi pi ti i0 irs Pn)) :=
      rungStep_not_fired h4
    have e5 : rungStep 3 1 0.1 5 false itime xi yi pi ti i0 irs
        (rungStep 7 5 0.5 3 false itime xi yi pi ti i0 irs
          (rungStep 9 7 0.7 2 false itime xi yi pi ti i0 irs
            (rungStep 10 9 0.9 1 true itime xi yi pi ti i0 irs Pn)))
        = rungStep 7 5 0.5 3 false itime xi yi pi ti i0 irs
          (rungStep 9 7 0.7 2 false itime xi yi pi ti i0 irs
            (rungStep 10 9 0.9 1 true itime xi yi pi ti i0 irs Pn)) := by
      apply rungStep_not_fired
      intro hc
      exact absurd hc.1 (by omega)
    have hfin : (cascade itime xi yi pi ti i0 irs Pn).1.passed i0
        = (rungStep 7 5 0.5 3 false itime xi yi pi ti i0 irs
            (rungStep 9 7 0.7 2 false itime xi yi pi ti i0 irs
              (rungStep 10 9 0.9 1 true itime xi yi pi ti i0 irs Pn))).1.passed i0 := by
      simp only [cascade]
      rw [e4, e5]
    omega

lemma cascade_cross5 (hentry : 3 ≤ Pn.1.passed i0)
    (hexit : (cascade itime xi yi pi ti i0 irs Pn).1.passed i0 ≤ 1) :
    (cascade itime xi yi pi ti i0 irs Pn).1.chi i0 < 0.1 ∧
    (cascade itime xi yi pi ti i0 irs Pn).1.src 5 i0
      = ⟨xi, yi, pi, ti, ((irs - itime : ℤ) : ℝ)⟩ ∧
    (cascade itime xi yi pi ti i0 irs Pn).2 5 = Pn.2 5 + 1 := by
  have hs1 : 3 ≤ (rungStep 10 9 0.9 1 true itime xi yi pi ti i0 irs Pn).1.passed i0 := by
    by_cases hf : Pn.1.passed i0 = 10 ∧ Pn.1.chi i0 < 0.9
    · rw [rungStep_fired hf]
      show 3 ≤ (fireRung 1 9 true itime xi yi pi ti i0 irs Pn.1).passed i0
      rw [fireRung_passed_self]
      omega
    · rw [rungStep_not_fired hf]
      exact hentry
  have hs2 : 3 ≤ (rungStep 9 7 0.7 2 false itime xi yi pi ti i0 irs
      (rungStep 10 9 0.9 1 true itime xi yi pi ti i0 irs Pn)).1.passed i0 := by
    by_cases hf : (rungStep 10 9 0.9 1 true itime xi yi pi ti i0 irs Pn).1.passed i0 = 9 ∧
        (rungStep 10 9 0.9 1 true itime xi yi pi ti i0 irs Pn).1.chi i0 < 0.7
    · rw [rungStep_fired hf]
      show 3 ≤ (fireRung 2 7 false itime xi yi pi ti i0 irs
        (rungStep 10 9 0.9 1 true itime xi yi pi ti i0 irs Pn).1).passed i0
      rw [fireRung_passed_self]
      omega
    · rw [rungStep_not_fired hf]
      exact hs1
  have hs3 : 3 ≤ (rungStep 7 5 0.5 3 false itime xi yi pi ti i0 irs
      (rungStep 9 7 0.7 2 false itime xi yi pi ti i0 irs
        (rungStep 10 9 0.9 1 true itime xi yi pi ti i0 irs Pn))).1.passed i0 := by
    by_cases hf : (rungStep 9 7 0.7 2 false itime xi yi pi ti i0 irs
        (rungStep 10 9 0.9 1 true itime xi yi pi ti i0 irs Pn)).1.passed i0 = 7 ∧
        (rungStep 9 7 0.7 2 false itime xi yi pi ti i0 irs
          (rungStep 10 9 0.9 1 true itime xi yi pi ti i0 irs Pn)).1.chi i0 < 0.5
    · rw [rungStep_fired hf]
      show 3 ≤ (fireRung 3 5 false itime xi yi pi ti i0 irs
        (rungStep 9 7 0.7 2 false itime xi yi pi ti i0 irs
          (rungStep 10 9 0.9 1 true itime xi yi pi ti i0 irs Pn)).1).passed i0
      rw [fireRung_passed_self]
      omega
    · rw [rungStep_not_fired hf]
      exact hs2
  have hs4 : 3 ≤ (rungStep 5 3 0.3 4 false itime xi yi pi ti i0 irs
      (rungStep 7 5 0.5 3 false itime xi yi pi ti i0 irs
        (rungStep 9 7 0.7 2 false itime xi yi pi ti i0 irs
          (rungStep 10 9 0.9 1 true itime xi yi pi ti i0 irs Pn)))).1.passed i0 := by
    by_cases hf : (rungStep 7 5 0.5 3 false itime xi yi pi ti i0 irs
        (rungStep 9 7 0.7 2 false itime xi yi pi ti i0 irs
          (rungStep 10 9 0.9 1 true itime xi yi pi ti i0 irs Pn))).1.passed i0 = 5 ∧
        (rungStep 7 5 0.5 3 false itime xi yi pi ti i0 irs
          (rungStep 9 7 0.7 2 false itime xi yi pi ti i0 irs
            (rungStep 10 9 0.9 1 true itime xi yi pi ti i0 irs Pn))).1.chi i0 < 0.3
    · rw [rungStep_fired hf]
      show 3 ≤ (fireRung 4 3 false itime xi yi pi ti i0 irs
        (rungStep 7 5 0.5 3 false itime xi yi pi ti i0 irs
          (rungStep 9 7 0.7 2 false itime xi yi pi ti i0 irs
            (rungStep 10 9 0.9 1 true itime xi yi pi ti i0 irs Pn))).1).passed i0
      rw [fireRung_passed_self]
    · rw [rungStep_not_fired hf]
      exact hs3
  by_cases h5 : (rungStep 5 3 0.3 4 false itime xi yi pi ti i0 irs
      (rungStep 7 5 0.5 3 false itime xi yi pi ti i0 irs
        (rungStep 9 7 0.7 2 false itime xi yi pi ti i0 irs
          (rungStep 10 9 0.9 1 true itime xi yi pi ti i0 irs Pn)))).1.passed i0 = 3 ∧
      (rungStep 5 3 0.3 4 false itime xi yi pi ti i0 irs
        (rungStep 7 5 0.5 3 false itime xi yi pi ti i0 irs
          (rungStep 9 7 0.7 2 false itime xi yi pi ti i0 irs
            (rungStep 10 9 0.9 1 true itime xi yi pi ti i0 irs Pn)))).1.chi i0 < 0.1
  · have e5 : rungStep 3 1 0.1 5 false itime xi yi pi ti i0 irs
        (rungStep 5 3 0.3 4 false itime xi yi pi ti i0 irs
          (rungStep 7 5 0.5 3 false itime xi yi pi ti i0 irs
            (rungStep 9 7 0.7 2 false itime xi yi pi ti i0 irs
              (rungStep 10 9 0.9 1 true itime xi yi pi ti i0 irs Pn))))
        = (fireRung 5 1 false itime xi yi pi ti i0 irs
            (rungStep 5 3 0.3 4 false itime xi yi pi ti i0 irs
              (rungStep 7 5 0.5 3 false itime xi yi pi ti i0 irs
                (rungStep 9 7 0.7 2 false itime xi yi pi ti i0 irs
                  (rungStep 10 9 0.9 1 true itime xi yi pi ti i0 irs Pn)))).1,
          bump (rungStep 5 3 0.3 4 false itime xi yi pi ti i0 irs
            (rungStep 7 5 0.5 3 false itime xi yi pi ti i0 irs
              (rungStep 9 7 0.7 2 false itime xi yi pi ti i0 irs
                (rungStep 10 9 0.9 1 true itime xi yi pi ti i0 irs Pn)))).2 5) :=
      rungStep_fired h5
    refine ⟨?_, ?_, ?_⟩
    · rw [cascade_chi]
      have := h5.2
      rw [rungStep_chi, rungStep_chi, rungStep_chi, rungStep_chi] at this
      exact this
    · simp only [cascade]
      rw [e5]
      show (fireRung 5 1 false itime xi yi pi ti i0 irs
        (rungStep 5 3 0.3 4 false itime xi yi pi ti i0 irs
          (rungStep 7 5 0.5 3 false itime xi yi pi ti i0 irs
            (rungStep 9 7 0.7 2 false itime xi yi pi ti i0 irs
              (rungStep 10 9 0.9 1 true itime xi yi pi ti i0 irs Pn)))).1).src 5 i0 = _
      exact fireRung_src_self _
    · simp only [cascade]
      rw [e5]
      show bump (rungStep 5 3 0.3 4 false itime xi yi pi ti i0 irs
        (rungStep 7 5 0.5 3 false itime xi yi pi ti i0 irs
          (rungStep 9 7 0.7 2 false itime xi yi pi ti i0 irs
            (rungStep 10 9 0.9 1 true itime xi yi pi ti i0 irs Pn)))).2 5 5 = Pn.2 5 + 1
      simp only [bump, Function.update_same]
      rw [rungStep_counts_ne _ (by decide), rungStep_counts_ne _ (by decide),
        rungStep_counts_ne _ (by decide), rungStep_counts_ne _ (by decide)]
  · exfalso
    have e5 : rungStep 3 1 0.1 5 false itime xi yi pi ti i0 irs
        (rungStep 5 3 0.3 4 false itime xi yi pi ti i0 irs
          (rungStep 7 5 0.5 3 false itime xi yi pi ti i0 irs
            (rungStep 9 7 0.7 2 false itime xi yi pi ti i0 irs
              (rungStep 10 9 0.9 1 true itime xi yi pi ti i0 irs Pn))))
        = rungStep 5 3 0.3 4 false itime xi yi pi ti i0 irs
          (rungStep 7 5 0.5 3 false itime xi yi pi ti i0 irs
            (rungStep 9 7 0.7 2 false itime xi yi pi ti i0 irs
              (rungStep 10 9 0.9 1 true itime xi yi pi ti i0 irs Pn))) :=
      rungStep_not_fired h5
    have hfin : (cascade itime xi yi pi ti i0 irs Pn).1.passed i0
        = (rungStep 5 3 0.3 4 false itime xi yi pi ti i0 irs
            (rungStep 7 5 0.5 3 false itime xi yi pi ti i0 irs
              (rungStep 9 7 0.7 2 false itime xi yi pi ti i0 irs
                (rungStep 10 9 0.9 1 true itime xi yi pi ti i0 irs Pn)))).1.passed i0 := by
      simp only [cascade]
      rw [e5]
    omega

end CascadeCrossDeep

/-! ## Lemmas about `detrainer` -/

section DetrainerLemmas

variable {nlat nlon nreg N : ℕ} [NeZero nlat] [NeZero nlon]
  {itime : ℤ} {xi yi pi ti : ℝ} {hyb : ℤ} {xf yf : ℝ}
  {udr : ℤ → ℤ → ℤ → ℝ} {i0 : Fin N} {irs : ℤ}
  {Lo1 La1 dlo dla : ℝ} {xshift yshift : ℤ}
  {mask : Fin nlat → Fin nlon → Fin nreg} {P : Prod0 nlat nlon nreg N}

lemma detr_offset_pos : (0:ℝ) < detr_offset := by
  rw [detr_offset]
  norm_num

lemma exp_factor_lt_one (detr : ℝ) (h : detr_offset ≤ detr) :
    Real.exp (-3600 * detr) < 1 := by
  have hd : (0:ℝ) < detr := lt_of_lt_of_le detr_offset_pos h
  calc Real.exp (-3600 * detr) < Real.exp 0 := by
        rw [Real.exp_lt_exp]
        nlinarith
    _ = 1 := Real.exp_zero

lemma detrainer_dead (h : P.flag_source i0 &&& I_DEAD ≠ 0) :
    detrainer itime xi yi pi ti hyb xf yf udr i0 irs Lo1 La1 dlo dla xshift yshift mask P
      = (P, fun _ => 0) := by
  rw [detrainer, if_neg h]

lemma detrainer_below (hlive : P.flag_source i0 &&& I_DEAD = 0)
    (hlt : pathMeanDetr udr hyb (gridRound xi Lo1 dlo) (gridRound yi La1 dla)
        (gridRound xf Lo1 dlo) (gridRound yf La1 dla) < detr_offset) :
    detrainer itime xi yi pi ti hyb xf yf udr i0 irs Lo1 La1 dlo dla xshift yshift mask P
      = (P, fun _ => 0) := by
  simp only [detrainer]
  rw [if_pos hlive, if_neg (not_le.mpr hlt)]

lemma detrainer_erode (hlive : P.flag_source i0 &&& I_DEAD = 0)
    (hoff : detr_offset ≤ pathMeanDetr udr hyb (gridRound xi Lo1 dlo)
        (gridRound yi La1 dla) (gridRound xf Lo1 dlo) (gridRound yf La1 dla)) :
    detrainer itime xi yi pi ti hyb xf yf udr i0 irs Lo1 La1 dlo dla xshift yshift mask P
      = (if 1 < P.passed i0 then
          cascade itime xi yi pi ti i0 irs
            (erodedState (gridRound xi Lo1 dlo) (gridRound yi La1 dla)
              (gridRound xf Lo1 dlo) (gridRound yf La1 dla)
              (pathMeanDetr udr hyb (gridRound xi Lo1 dlo) (gridRound yi La1 dla)
                (gridRound xf Lo1 dlo) (gridRound yf La1 dla))
              i0 xshift yshift mask P, fun _ => 0)
        else (erodedState (gridRound xi Lo1 dlo) (gridRound yi La1 dla)
              (gridRound xf Lo1 dlo) (gridRound yf La1 dla)
              (pathMeanDetr udr hyb (gridRound xi Lo1 dlo) (gridRound yi La1 dla)
                (gridRound xf Lo1 dlo) (gridRound yf La1 dla))
              i0 xshift yshift mask P, fun _ => 0)) := by
  simp only [detrainer]
  rw [if_pos hlive, if_pos hoff]
  rfl

lemma erodedState_chi (xig yig xfg yfg : ℤ) (detr : ℝ) :
    (erodedState xig yig xfg yfg detr i0 xshift yshift mask P).chi
      = Function.update P.chi i0 (P.chi i0 * Real.exp (-3600 * detr)) := rfl

lemma erodedState_passed (xig yig xfg yfg : ℤ) (detr : ℝ) :
    (erodedState xig yig xfg yfg detr i0 xshift yshift mask P).passed = P.passed := rfl

lemma erodedState_flag (xig yig xfg yfg : ℤ) (detr : ℝ) :
    (erodedState xig yig xfg yfg detr i0 xshift yshift mask P).flag_source
      = P.flag_source := rfl

lemma erodedState_src (xig yig xfg yfg : ℤ) (detr : ℝ) :
    (erodedState xig yig xfg yfg detr i0 xshift yshift mask P).src = P.src := rfl

end DetrainerLemmas

/-! ## Summation helpers for the accumulators -/

lemma sum_update_real {n : ℕ} (f : Fin n → ℝ) (i : Fin n) (v : ℝ) :
    (∑ j, Function.update f i v j) = (∑ j, f j) + (v - f i) := by
  rw [Finset.sum_update_of_mem (Finset.mem_univ i)]
  rw [Finset.sum_sdiff_eq_sub (Finset.subset_univ {i})]
  rw [Finset.sum_singleton]
  ring

lemma sum2_update {nlat nlon : ℕ} (source : Fin nlat → Fin nlon → ℝ)
    (ym : Fin nlat) (xm : Fin nlon) (d : ℝ) :
    (∑ a, ∑ b, Function.update source ym
        (Function.update (source ym) xm (source ym xm + d)) a b)
      = (∑ a, ∑ b, source a b) + d := by
  have hrow : ∀ a, (∑ b, Function.update source ym
      (Function.update (source ym) xm (source ym xm + d)) a b)
      = Function.update (fun a2 => ∑ b, source a2 b) ym
          (∑ b, Function.update (source ym) xm (source ym xm + d) b) a := by
    intro a
    by_cases ha : a = ym
    · subst ha
      rw [Function.update_same, Function.update_same]
    · rw [Function.update_noteq ha, Function.update_noteq ha]
  rw [Finset.sum_congr rfl (fun a _ => hrow a)]
  rw [sum_update_real]
  rw [sum_update_real]
  ring

lemma sum_one_sub_update {N : ℕ} (chi : Fin N → ℝ) (i0 : Fin N) (v : ℝ) :
    (∑ j, (1 - Function.update chi i0 v j)) = (∑ j, (1 - chi j)) + (chi i0 - v) := by
  have h : ∀ j, (1 - Function.update chi i0 v j)
      = Function.update (fun j2 => 1 - chi j2) i0 (1 - v) j := by
    intro j
    by_cases hj : j = i0
    · subst hj
      rw [Function.update_same, Function.update_same]
    · rw [Function.update_noteq hj, Function.update_noteq hj]
  rw [Finset.sum_congr rfl (fun j _ => h j), sum_update_real]
  ring

/-! ## Field characterizations of `detrainer` and step-level invariants -/

section DetrainerFields

variable {nlat nlon nreg N : ℕ} [NeZero nlat] [NeZero nlon]
  {itime : ℤ} {xi yi pi ti : ℝ} {hyb : ℤ} {xf yf : ℝ}
  {udr : ℤ → ℤ → ℤ → ℝ} {i0 : Fin N} {irs : ℤ}
  {Lo1 La1 dlo dla : ℝ} {xshift yshift : ℤ}
  {mask : Fin nlat → Fin nlon → Fin nreg} {P : Prod0 nlat nlon nreg N}

lemma detrainer_fst_chi :
    (detrainer itime xi yi pi ti hyb xf yf udr i0 irs Lo1 La1 dlo dla xshift yshift mask P).1.chi
      = if P.flag_source i0 &&& I_DEAD = 0 ∧
           detr_offset ≤ pathMeanDetr udr hyb (gridRound xi Lo1 dlo)
             (gridRound yi La1 dla) (gridRound xf Lo1 dlo) (gridRound yf La1 dla)
        then Function.update P.chi i0 (P.chi i0 * Real.exp
          (-3600 * pathMeanDetr udr hyb (gridRound xi Lo1 dlo)
            (gridRound yi La1 dla) (gridRound xf Lo1 dlo) (gridRound yf La1 dla)))
        else P.chi := by
  by_cases hlive : P.flag_source i0 &&& I_DEAD = 0
  · by_cases hoff : detr_offset ≤ pathMeanDetr udr hyb (gridRound xi Lo1 dlo)
        (gridRound yi La1 dla) (gridRound xf Lo1 dlo) (gridRound yf La1 dla)
    · have hc : P.flag_source i0 &&& I_DEAD = 0 ∧
          detr_offset ≤ pathMeanDetr udr hyb (gridRound xi Lo1 dlo)
            (gridRound yi La1 dla) (gridRound xf Lo1 dlo) (gridRound yf La1 dla) :=
        ⟨hlive, hoff⟩
      rw [detrainer_erode hlive hoff, if_pos hc]
      split
      · rw [cascade_chi]
        rfl
      · rfl
    · rw [detrainer_below hlive (not_le.mp hoff), if_neg (fun hc => hoff hc.2)]
  · rw [detrainer_dead hlive, if_neg (fun hc => hlive hc.1)]

lemma detrainer_fst_passed_le (j : Fin N) :
    (detrainer itime xi yi pi ti hyb xf yf udr i0 irs Lo1 La1 dlo dla xshift yshift
      mask P).1.passed j ≤ P.passed j := by
  by_cases hlive : P.flag_source i0 &&& I_DEAD = 0
  · by_cases hoff : detr_offset ≤ pathMeanDetr udr hyb (gridRound xi Lo1 dlo)
        (gridRound yi La1 dla) (gridRound xf Lo1 dlo) (gridRound yf La1 dla)
    · rw [detrainer_erode hlive hoff]
      split
      · exact cascade_passed_le j
      · exact le_refl _
    · rw [detrainer_below hlive (not_le.mp hoff)]
  · rw [detrainer_dead hlive]

lemma detrainer_fst_passed_mem (j : Fin N) (h : rungVals (P.passed j)) :
    rungVals ((detrainer itime xi yi pi ti hyb xf yf udr i0 irs Lo1 La1 dlo dla
      xshift yshift mask P).1.passed j) := by
  by_cases hlive : P.flag_source i0 &&& I_DEAD = 0
  · by_cases hoff : detr_offset ≤ pathMeanDetr udr hyb (gridRound xi Lo1 dlo)
        (gridRound yi La1 dla) (gridRound xf Lo1 dlo) (gridRound yf La1 dla)
    · rw [detrainer_erode hlive hoff]
      split
      · exact cascade_passed_mem j h
      · exact h
    · rw [detrainer_below hlive (not_le.mp hoff)]
      exact h
  · rw [detrainer_dead hlive]
    exact h

lemma detrainer_fst_flag_mono (j : Fin N) (b : ℕ)
    (h : (P.flag_source j).testBit b = true) :
    (((detrainer itime xi yi pi ti hyb xf yf udr i0 irs Lo1 La1 dlo dla
      xshift yshift mask P).1.flag_source j).testBit b) = true := by
  by_cases hlive : P.flag_source i0 &&& I_DEAD = 0
  · by_cases hoff : detr_offset ≤ pathMeanDetr udr hyb (gridRound xi Lo1 dlo)
        (gridRound yi La1 dla) (gridRound xf Lo1 dlo) (gridRound yf La1 dla)
    · rw [detrainer_erode hlive hoff]
      split
      · exact cascade_flag_mono j b h
      · exact h
    · rw [detrainer_below hlive (not_le.mp hoff)]
      exact h
  · rw [detrainer_dead hlive]
    exact h

lemma fst_pair {A B : Type} (a : A) (b : B) : (a, b).1 = a := rfl

lemma snd_pair {A B : Type} (a : A) (b : B) : (a, b).2 = b := rfl

lemma erodedState_source (xig yig xfg yfg : ℤ) (detr : ℝ) :
    (erodedState xig yig xfg yfg detr i0 xshift yshift mask P).source
      = Function.update P.source (clampIdx nlat ((yig + yfg).tdiv 2 + yshift))
          (Function.update (P.source (clampIdx nlat ((yig + yfg).tdiv 2 + yshift)))
            (clampIdx nlon ((xig + xfg).tdiv 2 + xshift))
            (P.source (clampIdx nlat ((yig + yfg).tdiv 2 + yshift))
                (clampIdx nlon ((xig + xfg).tdiv 2 + xshift))
              + (P.chi i0 - P.chi i0 * Real.exp (-3600 * detr)))) := rfl

lemma erodedState_pl (xig yig xfg yfg : ℤ) (detr : ℝ) :
    (erodedState xig yig xfg yfg detr i0 xshift yshift mask P).pl
      = Function.update P.pl
          (mask (clampIdx nlat ((yig + yfg).tdiv 2 + yshift))
            (clampIdx nlon ((xig + xfg).tdiv 2 + xshift)))
          (P.pl (mask (clampIdx nlat ((yig + yfg).tdiv 2 + yshift))
              (clampIdx nlon ((xig + xfg).tdiv 2 + xshift)))
            + (P.chi i0 - P.chi i0 * Real.exp (-3600 * detr))) := rfl

lemma detrainer_sums
    (hS : (∑ a, ∑ b, P.source a b) = ∑ j, (1 - P.chi j))
    (hP : (∑ r, P.pl r) = ∑ j, (1 - P.chi j)) :
    (∑ a, ∑ b, (detrainer itime xi yi pi ti hyb xf yf udr i0 irs Lo1 La1 dlo dla
        xshift yshift mask P).1.source a b)
      = (∑ j, (1 - (detrainer itime xi yi pi ti hyb xf yf udr i0 irs Lo1 La1 dlo dla
          xshift yshift mask P).1.chi j)) ∧
    (∑ r, (detrainer itime xi yi pi ti hyb xf yf udr i0 irs Lo1 La1 dlo dla
        xshift yshift mask P).1.pl r)
      = (∑ j, (1 - (detrainer itime xi yi pi ti hyb xf yf udr i0 irs Lo1 La1 dlo dla
          xshift yshift mask P).1.chi j)) := by
  by_cases hlive : P.flag_source i0 &&& I_DEAD = 0
  · by_cases hoff : detr_offset ≤ pathMeanDetr udr hyb (gridRound xi Lo1 dlo)
        (gridRound yi La1 dla) (gridRound xf Lo1 dlo) (gridRound yf La1 dla)
    · rw [detrainer_erode hlive hoff]
      split
      · constructor
        · rw [cascade_source, cascade_chi, erodedState_source,
            erodedState_chi, sum2_update, sum_one_sub_update, hS]
        · rw [cascade_pl, cascade_chi, erodedState_pl,
            erodedState_chi, sum_update_real, sum_one_sub_update, hP]
          ring
      · constructor
        · rw [erodedState_source, erodedState_chi, sum2_update,
            sum_one_sub_update, hS]
        · rw [erodedState_pl, erodedState_chi, sum_update_real,
            sum_one_sub_update, hP]
          ring
    · rw [detrainer_below hlive (not_le.mp hoff)]
      exact ⟨hS, hP⟩
  · rw [detrainer_dead hlive]
    exact ⟨hS, hP⟩

end DetrainerFields

/-! ## Step- and run-level invariants -/

section RunLemmas

variable {nlat nlon nreg N : ℕ} [NeZero nlat] [NeZero nlon]

lemma stepApply_chi (st : Step nlat nlon nreg N) (P : Prod0 nlat nlon nreg N)
    (j : Fin N) (h : 0 < P.chi j) :
    0 < (st.apply P).chi j ∧ (st.apply P).chi j ≤ P.chi j := by
  cases st with
  | deadborne x y p t i0 =>
    simp only [Step.apply, deadborne_chi]
    exact ⟨h, le_refl _⟩
  | exit itime x y p t i0 irs =>
    simp only [Step.apply, exiter_chi]
    exact ⟨h, le_refl _⟩
  | ground itime x y p t i0 irs =>
    simp only [Step.apply, radada_chi]
    exact ⟨h, le_refl _⟩
  | agesweep itime x y p t i0 irs =>
    simp only [Step.apply, ageSweep_chi]
    exact ⟨h, le_refl _⟩
  | detrain itime xi yi pi ti hyb xf yf udr i0 irs Lo1 La1 dlo dla xs ys mask =>
    simp only [Step.apply]
    rw [detrainer_fst_chi]
    split
    · rename_i hc
      by_cases hj : j = i0
      · rw [hj] at h ⊢
        rw [Function.update_same]
        refine ⟨mul_pos h (Real.exp_pos _), ?_⟩
        exact mul_le_of_le_one_right (le_of_lt h)
          (le_of_lt (exp_factor_lt_one _ hc.2))
      · rw [Function.update_noteq hj]
        exact ⟨h, le_refl _⟩
    · exact ⟨h, le_refl _⟩

lemma stepApply_flag_mono (st : Step nlat nlon nreg N) (P : Prod0 nlat nlon nreg N)
    (j : Fin N) (b : ℕ) (h : (P.flag_source j).testBit b = true) :
    ((st.apply P).flag_source j).testBit b = true := by
  cases st with
  | deadborne x y p t i0 =>
    exact deadborne_flag_mono x y p t i0 P j b h
  | exit itime x y p t i0 irs =>
    exact exiter_flag_mono itime x y p t i0 irs stcDomain P j b h
  | ground itime x y p t i0 irs =>
    exact radada_flag_mono itime x y p t i0 irs P j b h
  | agesweep itime x y p t i0 irs =>
    exact ageSweep_flag_mono itime x y p t i0 irs P j b h
  | detrain itime xi yi pi ti hyb xf yf udr i0 irs Lo1 La1 dlo dla xs ys mask =>
    exact detrainer_fst_flag_mono j b h

lemma stepApply_passed (st : Step nlat nlon nreg N) (P : Prod0 nlat nlon nreg N)
    (j : Fin N) :
    (st.apply P).passed j ≤ P.passed j ∧
    (rungVals (P.passed j) → rungVals ((st.apply P).passed j)) := by
  cases st with
  | deadborne x y p t i0 =>
    simp only [Step.apply, deadborne_passed]
    exact ⟨le_refl _, fun h => h⟩
  | exit itime x y p t i0 irs =>
    simp only [Step.apply, exiter_passed]
    exact ⟨le_refl _, fun h => h⟩
  | ground itime x y p t i0 irs =>
    simp only [Step.apply, radada_passed]
    exact ⟨le_refl _, fun h => h⟩
  | agesweep itime x y p t i0 irs =>
    simp only [Step.apply, ageSweep_passed]
    exact ⟨le_refl _, fun h => h⟩
  | detrain itime xi yi pi ti hyb xf yf udr i0 irs Lo1 La1 dlo dla xs ys mask =>
    simp only [Step.apply]
    exact ⟨detrainer_fst_passed_le j, detrainer_fst_passed_mem j⟩

lemma stepApply_sums (st : Step nlat nlon nreg N) (P : Prod0 nlat nlon nreg N)
    (hS : (∑ a, ∑ b, P.source a b) = ∑ j, (1 - P.chi j))
    (hP : (∑ r, P.pl r) = ∑ j, (1 - P.chi j)) :
    (∑ a, ∑ b, (st.apply P).source a b) = (∑ j, (1 - (st.apply P).chi j)) ∧
    (∑ r, (st.apply P).pl r) = (∑ j, (1 - (st.apply P).chi j)) := by
  cases st with
  | deadborne x y p t i0 =>
    simp only [Step.apply, deadborne_source, deadborne_pl, deadborne_chi]
    exact ⟨hS, hP⟩
  | exit itime x y p t i0 irs =>
    simp only [Step.apply, exiter_source, exiter_pl, exiter_chi]
    exact ⟨hS, hP⟩
  | ground itime x y p t i0 irs =>
    simp only [Step.apply, radada_source, radada_pl, radada_chi]
    exact ⟨hS, hP⟩
  | agesweep itime x y p t i0 irs =>
    simp only [Step.apply, ageSweep_source, ageSweep_pl, ageSweep_chi]
    exact ⟨hS, hP⟩
  | detrain itime xi yi pi ti hyb xf yf udr i0 irs Lo1 La1 dlo dla xs ys mask =>
    simp only [Step.apply]
    exact detrainer_sums hS hP

lemma run_append (P : Prod0 nlat nlon nreg N) (l1 l2 : List (Step nlat nlon nreg N)) :
    run P (l1 ++ l2) = run (run P l1) l2 := by
  induction l1 generalizing P with
  | nil => rfl
  | cons st l ih =>
    rw [List.cons_append]
    simp only [run]
    exact ih (st.apply P)

lemma run_chi (l : List (Step nlat nlon nreg N)) (P : Prod0 nlat nlon nreg N)
    (j : Fin N) (h : 0 < P.chi j) :
    0 < (run P l).chi j ∧ (run P l).chi j ≤ P.chi j := by
  induction l generalizing P with
  | nil => exact ⟨h, le_refl _⟩
  | cons st l ih =>
    obtain ⟨h1, h2⟩ := stepApply_chi st P j h
    obtain ⟨h3, h4⟩ := ih (st.apply P) h1
    simp only [run]
    exact ⟨h3, le_trans h4 h2⟩

lemma run_flag_mono (l : List (Step nlat nlon nreg N)) (P : Prod0 nlat nlon nreg N)
    (j : Fin N) (b : ℕ) (h : (P.flag_source j).testBit b = true) :
    ((run P l).flag_source j).testBit b = true := by
  induction l generalizing P with
  | nil => exact h
  | cons st l ih =>
    simp only [run]
    exact ih (st.apply P) (stepApply_flag_mono st P j b h)

lemma run_passed (l : List (Step nlat nlon nreg N)) (P : Prod0 nlat nlon nreg N)
    (j : Fin N) :
    (run P l).passed j ≤ P.passed j ∧
    (rungVals (P.passed j) → rungVals ((run P l).passed j)) := by
  induction l generalizing P with
  | nil => exact ⟨le_refl _, fun h => h⟩
  | cons st l ih =>
    obtain ⟨h1, h2⟩ := stepApply_passed st P j
    obtain ⟨h3, h4⟩ := ih (st.apply P)
    simp only [run]
    exact ⟨le_trans h3 h1, fun h => h4 (h2 h)⟩

lemma run_sums (l : List (Step nlat nlon nreg N)) (P : Prod0 nlat nlon nreg N)
    (hS : (∑ a, ∑ b, P.source a b) = ∑ j, (1 - P.chi j))
    (hP : (∑ r, P.pl r) = ∑ j, (1 - P.chi j)) :
    (∑ a, ∑ b, (run P l).source a b) = (∑ j, (1 - (run P l).chi j)) ∧
    (∑ r, (run P l).pl r) = (∑ j, (1 - (run P l).chi j)) := by
  induction l generalizing P with
  | nil => exact ⟨hS, hP⟩
  | cons st l ih =>
    obtain ⟨h1, h2⟩ := stepApply_sums st P hS hP
    simp only [run]
    exact ih (st.apply P) h1 h2

end RunLemmas

/-! ## Crossing lemmas lifted to `detrainer` -/

section DetrainerCross

variable {nlat nlon nreg N : ℕ} [NeZero nlat] [NeZero nlon]
  {itime : ℤ} {xi yi pi ti : ℝ} {hyb : ℤ} {xf yf : ℝ}
  {udr : ℤ → ℤ → ℤ → ℝ} {i0 : Fin N} {irs : ℤ}
  {Lo1 La1 dlo dla : ℝ} {xshift yshift : ℤ}
  {mask : Fin nlat → Fin nlon → Fin nreg} {P : Prod0 nlat nlon nreg N}

lemma detrainer_cross1 (hentry : 10 ≤ P.passed i0)
    (hexit : (detrainer itime xi yi pi ti hyb xf yf udr i0 irs Lo1 La1 dlo dla xshift yshift mask P).1.passed i0 ≤ 9) :
    (detrainer itime xi yi pi ti hyb xf yf udr i0 irs Lo1 La1 dlo dla xshift yshift mask P).1.chi i0 < 0.9 ∧
    (detrainer itime xi yi pi ti hyb xf yf udr i0 irs Lo1 La1 dlo dla xshift yshift mask P).1.src 1 i0 = ⟨xi, yi, pi, ti, ((irs - itime : ℤ) : ℝ)⟩ ∧
    (detrainer itime xi yi pi ti hyb xf yf udr i0 irs Lo1 La1 dlo dla xshift yshift mask P).2 1 = 1 := by
  by_cases hlive : P.flag_source i0 &&& I_DEAD = 0
  · by_cases hoff : detr_offset ≤ pathMeanDetr udr hyb (gridRound xi Lo1 dlo)
        (gridRound yi La1 dla) (gridRound xf Lo1 dlo) (gridRound yf La1 dla)
    · rw [detrainer_erode hlive hoff] at hexit ⊢
      by_cases hgt : 1 < P.passed i0
      · rw [if_pos hgt] at hexit ⊢
        have hc := @cascade_cross1 nlat nlon nreg N itime xi yi pi ti i0 irs
          (erodedState (gridRound xi Lo1 dlo) (gridRound yi La1 dla)
            (gridRound xf Lo1 dlo) (gridRound yf La1 dla)
            (pathMeanDetr udr hyb (gridRound xi Lo1 dlo) (gridRound yi La1 dla)
              (gridRound xf Lo1 dlo) (gridRound yf La1 dla)) i0 xshift yshift mask P,
          fun _ => 0) hentry hexit
        exact ⟨hc.1, hc.2.1, hc.2.2.1⟩
      · rw [if_neg hgt] at hexit
        exfalso
        have hpp : P.passed i0 ≤ 9 := hexit
        omega
    · rw [detrainer_below hlive (not_le.mp hoff)] at hexit
      exfalso
      have hpp : P.passed i0 ≤ 9 := hexit
      omega
  · rw [detrainer_dead hlive] at hexit
    exfalso
    have hpp : P.passed i0 ≤ 9 := hexit
    omega

lemma detrainer_cross2 (hentry : 9 ≤ P.passed i0)
    (hexit : (detrainer itime xi yi pi ti hyb xf yf udr i0 irs Lo1 La1 dlo dla xshift yshift mask P).1.passed i0 ≤ 7) :
    (detrainer itime xi yi pi ti hyb xf yf udr i0 irs Lo1 La1 dlo dla xshift yshift mask P).1.chi i0 < 0.7 ∧
    (detrainer itime xi yi pi ti hyb xf yf udr i0 irs Lo1 La1 dlo dla xshift yshift mask P).1.src 2 i0 = ⟨xi, yi, pi, ti, ((irs - itime : ℤ) : ℝ)⟩ ∧
    (detrainer itime xi yi pi ti hyb xf yf udr i0 irs Lo1 La1 dlo dla xshift yshift mask P).2 2 = 1 := by
  by_cases hlive : P.flag_source i0 &&& I_DEAD = 0
  · by_cases hoff : detr_offset ≤ pathMeanDetr udr hyb (gridRound xi Lo1 dlo)
        (gridRound yi La1 dla) (gridRound xf Lo1 dlo) (gridRound yf La1 dla)
    · rw [detrainer_erode hlive hoff] at hexit ⊢
      by_cases hgt : 1 < P.passed i0
      · rw [if_pos hgt] at hexit ⊢
        have hc := @cascade_cross2 nlat nlon nreg N itime xi yi pi ti i0 irs
          (erodedState (gridRound xi Lo1 dlo) (gridRound yi La1 dla)
            (gridRound xf Lo1 dlo) (gridRound yf La1 dla)
            (pathMeanDetr udr hyb (gridRound xi Lo1 dlo) (gridRound yi La1 dla)
              (gridRound xf Lo1 dlo) (gridRound yf La1 dla)) i0 xshift yshift mask P,
          fun _ => 0) hentry hexit
        exact ⟨hc.1, hc.2.1, hc.2.2⟩
      · rw [if_neg hgt] at hexit
        exfalso
        have hpp : P.passed i0 ≤ 7 := hexit
        omega
    · rw [detrainer_below hlive (not_le.mp hoff)] at hexit
      exfalso
      have hpp : P.passed i0 ≤ 7 := hexit
      omega
  · rw [detrainer_dead hlive] at hexit
    exfalso
    have hpp : P.passed i0 ≤ 7 := hexit
    omega

lemma detrainer_cross3 (hentry : 7 ≤ P.passed i0)
    (hexit : (detrainer itime xi yi pi ti hyb xf yf udr i0 irs Lo1 La1 dlo dla xshift yshift mask P).1.passed i0 ≤ 5) :
    (detrainer itime xi yi pi ti hyb xf yf udr i0 irs Lo1 La1 dlo dla xshift yshift mask P).1.chi i0 < 0.5 ∧
    (detrainer itime xi yi pi ti hyb xf yf udr i0 irs Lo1 La1 dlo dla xshift yshift mask P).1.src 3 i0 = ⟨xi, yi, pi, ti, ((irs - itime : ℤ) : ℝ)⟩ ∧
    (detrainer itime xi yi pi ti hyb xf yf udr i0 irs Lo1 La1 dlo dla xshift yshift mask P).2 3 = 1 := by
  by_cases hlive : P.flag_source i0 &&& I_DEAD = 0
  · by_cases hoff : detr_offset ≤ pathMeanDetr udr hyb (gridRound xi Lo1 dlo)
        (gridRound yi La1 dla) (gridRound xf Lo1 dlo) (gridRound yf La1 dla)
    · rw [detrainer_erode hlive hoff] at hexit ⊢
      by_cases hgt : 1 < P.passed i0
      · rw [if_pos hgt] at hexit ⊢
        have hc := @cascade_cross3 nlat nlon nreg N itime xi yi pi ti i0 irs
          (erodedState (gridRound xi Lo1 dlo) (gridRound yi La1 dla)
            (gridRound xf Lo1 dlo) (gridRound yf La1 dla)
            (pathMeanDetr udr hyb (gridRound xi Lo1 dlo) (gridRound yi La1 dla)
              (gridRound xf Lo1 dlo) (gridRound yf La1 dla)) i0 xshift yshift mask P,
          fun _ => 0) hentry hexit
        exact ⟨hc.1, hc.2.1, hc.2.2⟩
      · rw [if_neg hgt] at hexit
        exfalso
        have hpp : P.passed i0 ≤ 5 := hexit
        omega
    · rw [detrainer_below hlive (not_le.mp hoff)] at hexit
      exfalso
      have hpp : P.passed i0 ≤ 5 := hexit
      omega
  · rw [detrainer_dead hlive] at hexit
    exfalso
    have hpp : P.passed i0 ≤ 5 := hexit
    omega

lemma detrainer_cross4 (hentry : 5 ≤ P.passed i0)
    (hexit : (detrainer itime xi yi pi ti hyb xf yf udr i0 irs Lo1 La1 dlo dla xshift yshift mask P).1.passed i0 ≤ 3) :
    (detrainer itime xi yi pi ti hyb xf yf udr i0 irs Lo1 La1 dlo dla xshift yshift mask P).1.chi i0 < 0.3 ∧
    (detrainer itime xi yi pi ti hyb xf yf udr i0 irs Lo1 La1 dlo dla xshift yshift mask P).1.src 4 i0 = ⟨xi, yi, pi, ti, ((irs - itime : ℤ) : ℝ)⟩ ∧
    (detrainer itime xi yi pi ti hyb xf yf udr i0 irs Lo1 La1 dlo dla xshift yshift mask P).2 4 = 1 := by
  by_cases hlive : P.flag_source i0 &&& I_DEAD = 0
  · by_cases hoff : detr_offset ≤ pathMeanDetr udr hyb (gridRound xi Lo1 dlo)
        (gridRound yi La1 dla) (gridRound xf Lo1 dlo) (gridRound yf La1 dla)
    · rw [detrainer_erode hlive hoff] at hexit ⊢
      by_cases hgt : 1 < P.passed i0
      · rw [if_pos hgt] at hexit ⊢
        have hc := @cascade_cross4 nlat nlon nreg N itime xi yi pi ti i0 irs
          (erodedState (gridRound xi Lo1 dlo) (gridRound yi La1 dla)
            (gridRound xf Lo1 dlo) (gridRound yf La1 dla)
            (pathMeanDetr udr hyb (gridRound xi Lo1 dlo) (gridRound yi La1 dla)
              (gridRound xf Lo1 dlo) (gridRound yf La1 dla)) i0 xshift yshift mask P,
          fun _ => 0) hentry hexit
        exact ⟨hc.1, hc.2.1, hc.2.2⟩
      · rw [if_neg hgt] at hexit
        exfalso
        have hpp : P.passed i0 ≤ 3 := hexit
        omega
    · rw [detrainer_below hlive (not_le.mp hoff)] at hexit
      exfalso
      have hpp : P.passed i0 ≤ 3 := hexit
      omega
  · rw [detrainer_dead hlive] at hexit
    exfalso
    have hpp : P.passed i0 ≤ 3 := hexit
    omega

lemma detrainer_cross5 (hentry : 3 ≤ P.passed i0)
    (hexit : (detrainer itime xi yi pi ti hyb xf yf udr i0 irs Lo1 La1 dlo dla xshift yshift mask P).1.passed i0 ≤ 1) :
    (detrainer itime xi yi pi ti hyb xf yf udr i0 irs Lo1 La1 dlo dla xshift yshift mask P).1.chi i0 < 0.1 ∧
    (detrainer itime xi yi pi ti hyb xf yf udr i0 irs Lo1 La1 dlo dla xshift yshift mask P).1.src 5 i0 = ⟨xi, yi, pi, ti, ((irs - itime : ℤ) : ℝ)⟩ ∧
    (detrainer itime xi yi pi ti hyb xf yf udr i0 irs Lo1 La1 dlo dla xshift yshift mask P).2 5 = 1 := by
  by_cases hlive : P.flag_source i0 &&& I_DEAD = 0
  · by_cases hoff : detr_offset ≤ pathMeanDetr udr hyb (gridRound xi Lo1 dlo)
        (gridRound yi La1 dla) (gridRound xf Lo1 dlo) (gridRound yf La1 dla)
    · rw [detrainer_erode hlive hoff] at hexit ⊢
      by_cases hgt : 1 < P.passed i0
      · rw [if_pos hgt] at hexit ⊢
        have hc := @cascade_cross5 nlat nlon nreg N itime xi yi pi ti i0 irs
          (erodedState (gridRound xi Lo1 dlo) (gridRound yi La1 dla)
            (gridRound xf Lo1 dlo) (gridRound yf La1 dla)
            (pathMeanDetr udr hyb (gridRound xi Lo1 dlo) (gridRound yi La1 dla)
              (gridRound xf Lo1 dlo) (gridRound yf La1 dla)) i0 xshift yshift mask P,
          fun _ => 0) hentry hexit
        exact ⟨hc.1, hc.2.1, hc.2.2⟩
      · rw [if_neg hgt] at hexit
        exfalso
        have hpp : P.passed i0 ≤ 1 := hexit
        omega
    · rw [detrainer_below hlive (not_le.mp hoff)] at hexit
      exfalso
      have hpp : P.passed i0 ≤ 1 := hexit
      omega
  · rw [detrainer_dead hlive] at hexit
    exfalso
    have hpp : P.passed i0 ≤ 1 := hexit
    omega

lemma detrainer_hit (hentry : P.passed i0 = 10)
    (hexit : (detrainer itime xi yi pi ti hyb xf yf udr i0 irs Lo1 La1 dlo dla xshift yshift mask P).1.passed i0 ≤ 9) :
    (detrainer itime xi yi pi ti hyb xf yf udr i0 irs Lo1 La1 dlo dla xshift yshift mask P).1.flag_source i0 &&& I_HIT ≠ 0 ∧
    (detrainer itime xi yi pi ti hyb xf yf udr i0 irs Lo1 La1 dlo dla xshift yshift mask P).1.flag_source i0 &&& I_DEAD = P.flag_source i0 &&& I_DEAD := by
  by_cases hlive : P.flag_source i0 &&& I_DEAD = 0
  · by_cases hoff : detr_offset ≤ pathMeanDetr udr hyb (gridRound xi Lo1 dlo)
        (gridRound yi La1 dla) (gridRound xf Lo1 dlo) (gridRound yf La1 dla)
    · rw [detrainer_erode hlive hoff] at hexit ⊢
      by_cases hgt : 1 < P.passed i0
      · rw [if_pos hgt] at hexit ⊢
        have hc := @cascade_cross1 nlat nlon nreg N itime xi yi pi ti i0 irs
          (erodedState (gridRound xi Lo1 dlo) (gridRound yi La1 dla)
            (gridRound xf Lo1 dlo) (gridRound yf La1 dla)
            (pathMeanDetr udr hyb (gridRound xi Lo1 dlo) (gridRound yi La1 dla)
              (gridRound xf Lo1 dlo) (gridRound yf La1 dla)) i0 xshift yshift mask P,
          fun _ => 0) (le_of_eq hentry.symm) hexit
        constructor
        · rw [hc.2.2.2]
          exact or_and_ne_zero _ _ _ (by decide)
        · rw [hc.2.2.2, or_and_eq_of_and_eq_zero _ _ _ (by decide)]
          rfl
      · exfalso
        omega
    · rw [detrainer_below hlive (not_le.mp hoff)] at hexit
      exfalso
      have hpp : P.passed i0 ≤ 9 := hexit
      omega
  · rw [detrainer_dead hlive] at hexit
    exfalso
    have hpp : P.passed i0 ≤ 9 := hexit
    omega

end DetrainerCross

/-! ## Localization of the deposit, and helper facts on concrete inputs -/

section Localized

variable {nlat nlon nreg N : ℕ} [NeZero nlat] [NeZero nlon]

lemma erodedState_localized {i0 : Fin N} {xshift yshift : ℤ}
    {mask : Fin nlat → Fin nlon → Fin nreg} {P : Prod0 nlat nlon nreg N}
    (xig yig xfg yfg : ℤ) (detr : ℝ) (ym : Fin nlat) (xm : Fin nlon)
    (hym : ym = clampIdx nlat ((yig + yfg).tdiv 2 + yshift))
    (hxm : xm = clampIdx nlon ((xig + xfg).tdiv 2 + xshift)) :
    (erodedState xig yig xfg yfg detr i0 xshift yshift mask P).source ym xm
      = P.source ym xm
        + (P.chi i0 - (erodedState xig yig xfg yfg detr i0 xshift yshift mask P).chi i0) ∧
    (∀ a b, ¬(a = ym ∧ b = xm) →
      (erodedState xig yig xfg yfg detr i0 xshift yshift mask P).source a b
        = P.source a b) ∧
    (erodedState xig yig xfg yfg detr i0 xshift yshift mask P).pl (mask ym xm)
      = P.pl (mask ym xm)
        + (P.chi i0 - (erodedState xig yig xfg yfg detr i0 xshift yshift mask P).chi i0) ∧
    (∀ r, r ≠ mask ym xm →
      (erodedState xig yig xfg yfg detr i0 xshift yshift mask P).pl r = P.pl r) ∧
    (∀ j, j ≠ i0 →
      (erodedState xig yig xfg yfg detr i0 xshift yshift mask P).chi j = P.chi j) := by
  subst hym
  subst hxm
  refine ⟨?_, ?_, ?_, ?_, ?_⟩
  · rw [erodedState_source, erodedState_chi, Function.update_same,
      Function.update_same, Function.update_same]
  · intro a b hab
    rw [erodedState_source]
    by_cases ha : a = clampIdx nlat ((yig + yfg).tdiv 2 + yshift)
    · have hb : b ≠ clampIdx nlon ((xig + xfg).tdiv 2 + xshift) :=
        fun hb => hab ⟨ha, hb⟩
      rw [ha, Function.update_same, Function.update_noteq hb]
    · rw [Function.update_noteq ha]
  · rw [erodedState_pl, erodedState_chi, Function.update_same, Function.update_same]
  · intro r hr
    rw [erodedState_pl, Function.update_noteq hr]
  · intro j hj
    rw [erodedState_chi, Function.update_noteq hj]

end Localized

lemma cascade_all_fire {nlat nlon nreg N : ℕ} {itime : ℤ} {xi yi pi ti : ℝ}
    {i0 : Fin N} {irs : ℤ} {Pn : Prod0 nlat nlon nreg N × (Fin 6 → ℕ)}
    (hp : Pn.1.passed i0 = 10) (hc : Pn.1.chi i0 < 0.1) :
    (cascade itime xi yi pi ti i0 irs Pn).1.passed i0 = 1 := by
  have h09 : Pn.1.chi i0 < 0.9 := lt_trans hc (by norm_num)
  have e1 := @rungStep_fired nlat nlon nreg N 10 9 0.9 1 true itime xi yi pi ti i0 irs
    Pn ⟨hp, h09⟩
  have hc1 : (fireRung 1 9 true itime xi yi pi ti i0 irs Pn.1).chi i0 < 0.7 := by
    rw [fireRung_chi]
    exact lt_trans hc (by norm_num)
  have e2 := @rungStep_fired nlat nlon nreg N 9 7 0.7 2 false itime xi yi pi ti i0 irs
    (fireRung 1 9 true itime xi yi pi ti i0 irs Pn.1, bump Pn.2 1)
    ⟨fireRung_passed_self Pn.1, hc1⟩
  have hc2 : (fireRung 2 7 false itime xi yi pi ti i0 irs
      (fireRung 1 9 true itime xi yi pi ti i0 irs Pn.1)).chi i0 < 0.5 := by
    rw [fireRung_chi, fireRung_chi]
    exact lt_trans hc (by norm_num)
  have e3 := @rungStep_fired nlat nlon nreg N 7 5 0.5 3 false itime xi yi pi ti i0 irs
    (fireRung 2 7 false itime xi yi pi ti i0 irs
      (fireRung 1 9 true itime xi yi pi ti i0 irs Pn.1), bump (bump Pn.2 1) 2)
    ⟨fireRung_passed_self _, hc2⟩
  have hc3 : (fireRung 3 5 false itime xi yi pi ti i0 irs
      (fireRung 2 7 false itime xi yi pi ti i0 irs
        (fireRung 1 9 true itime xi yi pi ti i0 irs Pn.1))).chi i0 < 0.3 := by
    rw [fireRung_chi, fireRung_chi, fireRung_chi]
    exact lt_trans hc (by norm_num)
  have e4 := @rungStep_fired nlat nlon nreg N 5 3 0.3 4 false itime xi yi pi ti i0 irs
    (fireRung 3 5 false itime xi yi pi ti i0 irs
      (fireRung 2 7 false itime xi yi pi ti i0 irs
        (fireRung 1 9 true itime xi yi pi ti i0 irs Pn.1)),
      bump (bump (bump Pn.2 1) 2) 3)
    ⟨fireRung_passed_self _, hc3⟩
  have hc4 : (fireRung 4 3 false itime xi yi pi ti i0 irs
      (fireRung 3 5 false itime xi yi pi ti i0 irs
        (fireRung 2 7 false itime xi yi pi ti i0 irs
          (fireRung 1 9 true itime xi yi pi ti i0 irs Pn.1)))).chi i0 < 0.1 := by
    rw [fireRung_chi, fireRung_chi, fireRung_chi, fireRung_chi]
    exact hc
  have e5 := @rungStep_fired nlat nlon nreg N 3 1 0.1 5 false itime xi yi pi ti i0 irs
    (fireRung 4 3 false itime xi yi pi ti i0 irs
      (fireRung 3 5 false itime xi yi pi ti i0 irs
        (fireRung 2 7 false itime xi yi pi ti i0 irs
          (fireRung 1 9 true itime xi yi pi ti i0 irs Pn.1))),
      bump (bump (bump (bump Pn.2 1) 2) 3) 4)
    ⟨fireRung_passed_self _, hc4⟩
  simp only [cascade]
  rw [e1, e2, e3, e4, e5]
  exact fireRung_passed_self _

lemma concrete_gridRound : gridRound 0 0 1 = 0 := by
  rw [gridRound]
  have h1 : ((0:ℝ) - 0) / 1 + 0.5 = 0.5 := by norm_num
  rw [h1, Int.floor_eq_zero_iff, Set.mem_Ico]
  norm_num

lemma concrete_line : line 0 0 0 0 = [(0, 0)] := by decide

lemma concrete_meanDetr :
    pathMeanDetr udr1 50 (gridRound 0 0 1) (gridRound 0 0 1) (gridRound 0 0 1)
      (gridRound 0 0 1) = 1 := by
  rw [concrete_gridRound, pathMeanDetr, concrete_line]
  simp [udr1]

lemma concrete_off :
    detr_offset ≤ pathMeanDetr udr1 50 (gridRound 0 0 1) (gridRound 0 0 1)
      (gridRound 0 0 1) (gridRound 0 0 1) := by
  rw [concrete_meanDetr, detr_offset]
  norm_num

lemma concrete_exp_small :
    Real.exp (-3600 * pathMeanDetr udr1 50 (gridRound 0 0 1) (gridRound 0 0 1)
      (gridRound 0 0 1) (gridRound 0 0 1)) < 0.1 := by
  rw [concrete_meanDetr]
  have h2 : Real.exp (-3600 * (1:ℝ)) ≤ Real.exp (-10) := by
    rw [Real.exp_le_exp]
    norm_num
  have h4 : (10:ℝ) + 1 ≤ Real.exp 10 := Real.add_one_le_exp 10
  have h5 : (0:ℝ) < Real.exp 10 := Real.exp_pos 10
  have h8 : (Real.exp 10)⁻¹ < 0.1 := by
    by_contra hcon
    push_neg at hcon
    have h10 : 0.1 * Real.exp 10 ≤ (Real.exp 10)⁻¹ * Real.exp 10 :=
      mul_le_mul_of_nonneg_right hcon (le_of_lt h5)
    rw [inv_mul_cancel₀ (ne_of_gt h5)] at h10
    linarith
  calc Real.exp (-3600 * (1:ℝ)) ≤ Real.exp (-10) := h2
    _ = (Real.exp 10)⁻¹ := Real.exp_neg 10
    _ < 0.1 := h8

lemma concrete_detrainer_passed :
    (detrainer 0 0 0 20000 200 50 0 0 udr1 0 0 0 0 1 1 0 0 mask0 P0).1.passed 0 = 1 := by
  have hlive : P0.flag_source 0 &&& I_DEAD = 0 := by decide
  have hgt : (1:ℤ) < P0.passed 0 := by decide
  rw [detrainer_erode hlive concrete_off, if_pos hgt]
  refine cascade_all_fire ?_ ?_
  · rfl
  · show (erodedState (gridRound 0 0 1) (gridRound 0 0 1) (gridRound 0 0 1)
        (gridRound 0 0 1)
        (pathMeanDetr udr1 50 (gridRound 0 0 1) (gridRound 0 0 1) (gridRound 0 0 1)
          (gridRound 0 0 1)) 0 0 0 mask0 P0).chi 0 < 0.1
    rw [erodedState_chi, Function.update_same]
    have h1 : P0.chi 0 = 1 := rfl
    rw [h1, one_mul]
    exact concrete_exp_small

/-! ## Claims about the detrainment engine and the run -/

/-- C1: for a live (DEAD-clear) parcel, when the mean detrainment rate over
the rasterized path at the parcel's hybrid level is at least `detr_offset`,
`detrainer` multiplies the survival fraction by the fixed one-hour factor
`exp(-3600 * detr)` (the exponent never depends on the slice width); when
the mean rate is below `detr_offset`, the whole call is a no-op: chi is
unchanged and nothing is deposited or archived. -/
theorem C1_detrainer_erosion {nlat nlon nreg N : ℕ} [NeZero nlat] [NeZero nlon]
    (itime : ℤ) (xi yi pi ti : ℝ) (hyb : ℤ) (xf yf : ℝ)
    (udr : ℤ → ℤ → ℤ → ℝ) (i0 : Fin N) (irs : ℤ)
    (Lo1 La1 dlo dla : ℝ) (xshift yshift : ℤ)
    (mask : Fin nlat → Fin nlon → Fin nreg) (P : Prod0 nlat nlon nreg N)
    (hlive : P.flag_source i0 &&& I_DEAD = 0) :
    (detr_offset ≤ pathMeanDetr udr hyb (gridRound xi Lo1 dlo) (gridRound yi La1 dla)
        (gridRound xf Lo1 dlo) (gridRound yf La1 dla) →
      (detrainer itime xi yi pi ti hyb xf yf udr i0 irs Lo1 La1 dlo dla xshift yshift
          mask P).1.chi i0
        = P.chi i0 * Real.exp (-3600 * pathMeanDetr udr hyb (gridRound xi Lo1 dlo)
            (gridRound yi La1 dla) (gridRound xf Lo1 dlo) (gridRound yf La1 dla))) ∧
    (pathMeanDetr udr hyb (gridRound xi Lo1 dlo) (gridRound yi La1 dla)
        (gridRound xf Lo1 dlo) (gridRound yf La1 dla) < detr_offset →
      detrainer itime xi yi pi ti hyb xf yf udr i0 irs Lo1 La1 dlo dla xshift yshift mask P
        = (P, fun _ => 0)) := by
  constructor
  · intro hoff
    have hcond : P.flag_source i0 &&& I_DEAD = 0 ∧
        detr_offset ≤ pathMeanDetr udr hyb (gridRound xi Lo1 dlo)
          (gridRound yi La1 dla) (gridRound xf Lo1 dlo) (gridRound yf La1 dla) :=
      ⟨hlive, hoff⟩
    rw [detrainer_fst_chi, if_pos hcond, Function.update_same]
  · intro hlt
    exact detrainer_below hlive hlt

/-- C1 witness: the one-parcel state with unit detrainment-rate field; the
mean rate over the degenerate path is 1 which exceeds `detr_offset`. -/
theorem C1_detrainer_erosion_witness :
    (P0.flag_source 0 &&& I_DEAD = 0) ∧
    ((detr_offset ≤ pathMeanDetr udr1 50 (gridRound 0 0 1) (gridRound 0 0 1)
        (gridRound 0 0 1) (gridRound 0 0 1) →
      (detrainer 0 0 0 20000 200 50 0 0 udr1 0 0 0 0 1 1 0 0 mask0 P0).1.chi 0
        = P0.chi 0 * Real.exp (-3600 * pathMeanDetr udr1 50 (gridRound 0 0 1)
            (gridRound 0 0 1) (gridRound 0 0 1) (gridRound 0 0 1))) ∧
     (pathMeanDetr udr1 50 (gridRound 0 0 1) (gridRound 0 0 1) (gridRound 0 0 1)
        (gridRound 0 0 1) < detr_offset →
      detrainer 0 0 0 20000 200 50 0 0 udr1 0 0 0 0 1 1 0 0 mask0 P0
        = (P0, fun _ => 0))) :=
  ⟨by decide, C1_detrainer_erosion 0 0 0 20000 200 50 0 0 udr1 0 0 0 0 1 1 0 0
    mask0 P0 (by decide)⟩

/-- C2: chi starts at 1, stays in the half-open interval (0, 1], and is
non-increasing along every run; every erosion factor `exp(-3600*detr)` with
`detr` at least `detr_offset` lies strictly between 0 and 1. -/
theorem C2_chi_unit_interval {nlat nlon nreg N : ℕ} [NeZero nlat] [NeZero nlon]
    (flag0 : Fin N → ℕ) (src0 : Fin 6 → Fin N → Slot)
    (l1 l2 : List (Step nlat nlon nreg N)) (j : Fin N) :
    (initProd nlat nlon nreg N flag0 src0).chi j = 1 ∧
    0 < (run (initProd nlat nlon nreg N flag0 src0) l1).chi j ∧
    (run (initProd nlat nlon nreg N flag0 src0) l1).chi j ≤ 1 ∧
    (run (initProd nlat nlon nreg N flag0 src0) (l1 ++ l2)).chi j
      ≤ (run (initProd nlat nlon nreg N flag0 src0) l1).chi j ∧
    (∀ detr : ℝ, detr_offset ≤ detr →
      0 < Real.exp (-3600 * detr) ∧ Real.exp (-3600 * detr) < 1) := by
  have h1 : (initProd nlat nlon nreg N flag0 src0).chi j = 1 := rfl
  have h0 : (0:ℝ) < (initProd nlat nlon nreg N flag0 src0).chi j := by
    rw [h1]
    norm_num
  obtain ⟨hp, hle⟩ := run_chi l1 (initProd nlat nlon nreg N flag0 src0) j h0
  refine ⟨h1, hp, ?_, ?_, ?_⟩
  · rw [h1] at hle
    exact hle
  · rw [run_append]
    exact (run_chi l2 (run (initProd nlat nlon nreg N flag0 src0) l1) j hp).2
  · intro detr hd
    exact ⟨Real.exp_pos _, exp_factor_lt_one detr hd⟩

/-- C2 witness: the bounds evaluated on the one-parcel state after one
deadborne step. -/
theorem C2_chi_unit_interval_witness :
    ((initProd 1 1 1 1 (fun _ => 0) (fun _ _ => ⟨0, 0, 0, 0, 0⟩)).chi 0 = 1) ∧
    (0 < (run P0 [Step.deadborne 0 0 0 0 0]).chi 0) ∧
    ((run P0 [Step.deadborne 0 0 0 0 0]).chi 0 ≤ 1) := by
  have h := @C2_chi_unit_interval 1 1 1 1 ⟨one_ne_zero⟩ ⟨one_ne_zero⟩
    (fun _ => 0) (fun _ _ => ⟨0, 0, 0, 0, 0⟩) [Step.deadborne 0 0 0 0 0] [] 0
  exact ⟨h.1, h.2.1, h.2.2.1⟩

/-- C3: no flag bit is ever cleared along a run (the bitfield grows
monotonically), and once the DEAD bit of a parcel is set, `exiter`, `radada`
and `detrainer` return the state unchanged for that parcel: flag, chi,
ratchet and milestone slots are all frozen. -/
theorem C3_flag_monotone_dead_frozen {nlat nlon nreg N : ℕ} [NeZero nlat] [NeZero nlon] :
    (∀ (flag0 : Fin N → ℕ) (src0 : Fin 6 → Fin N → Slot)
        (l1 l2 : List (Step nlat nlon nreg N)) (j : Fin N) (b : ℕ),
      ((run (initProd nlat nlon nreg N flag0 src0) l1).flag_source j).testBit b = true →
      ((run (initProd nlat nlon nreg N flag0 src0) (l1 ++ l2)).flag_source j).testBit b
        = true) ∧
    (∀ (itime : ℤ) (x y p t : ℝ) (i0 : Fin N) (irs : ℤ) (rr : Fin 2 → Fin 2 → ℝ)
        (P : Prod0 nlat nlon nreg N), P.flag_source i0 &&& I_DEAD ≠ 0 →
      exiter itime x y p t i0 irs rr P = P ∧ radada itime x y p t i0 irs P = P) ∧
    (∀ (itime : ℤ) (xi yi pi ti : ℝ) (hyb : ℤ) (xf yf : ℝ) (udr : ℤ → ℤ → ℤ → ℝ)
        (i0 : Fin N) (irs : ℤ) (Lo1 La1 dlo dla : ℝ) (xshift yshift : ℤ)
        (mask : Fin nlat → Fin nlon → Fin nreg) (P : Prod0 nlat nlon nreg N),
      P.flag_source i0 &&& I_DEAD ≠ 0 →
      detrainer itime xi yi pi ti hyb xf yf udr i0 irs Lo1 La1 dlo dla xshift yshift mask P
        = (P, fun _ => 0)) := by
  refine ⟨?_, ?_, ?_⟩
  · intro flag0 src0 l1 l2 j b h
    rw [run_append]
    exact run_flag_mono l2 _ j b h
  · intro itime x y p t i0 irs rr P h
    exact ⟨exiter_dead itime x y p t i0 irs rr P h, radada_dead itime x y p t i0 irs P h⟩
  · intro itime xi yi pi ti hyb xf yf udr i0 irs Lo1 La1 dlo dla xshift yshift mask P h
    exact detrainer_dead h

/-- C3 witness: the DEAD bit (bit 21) set by a ground-contact step survives a
later deadborne step, and the three handlers leave an already-DEAD parcel
untouched. -/
theorem C3_flag_monotone_dead_frozen_witness :
    (((run P0 [Step.ground 0 0 0 0 0 0 0]).flag_source 0).testBit 21 = true) ∧
    (((run P0 ([Step.ground 0 0 0 0 0 0 0] ++ [Step.deadborne 0 0 0 0 0])).flag_source
        0).testBit 21 = true) ∧
    (PDead.flag_source 0 &&& I_DEAD ≠ 0) ∧
    (exiter 0 0 0 0 0 0 0 stcDomain PDead = PDead ∧ radada 0 0 0 0 0 0 0 PDead = PDead) ∧
    (detrainer 0 0 0 20000 200 50 0 0 udr1 0 0 0 0 1 1 0 0 mask0 PDead
      = (PDead, fun _ => 0)) := by
  have h := @C3_flag_monotone_dead_frozen 1 1 1 1 ⟨one_ne_zero⟩ ⟨one_ne_zero⟩
  have hb : ((run P0 [Step.ground 0 0 0 0 0 0 0]).flag_source 0).testBit 21 = true := by
    decide
  exact ⟨hb,
    h.1 (fun _ => 0) (fun _ _ => ⟨0, 0, 0, 0, 0⟩) [Step.ground 0 0 0 0 0 0 0]
      [Step.deadborne 0 0 0 0 0] 0 21 hb,
    by decide,
    h.2.1 0 0 0 0 0 0 0 stcDomain PDead (by decide),
    h.2.2 0 0 0 20000 200 50 0 0 udr1 0 0 0 0 1 1 0 0 mask0 PDead (by decide)⟩

/-- C4: along every run, the total of the `source` grid and the total of the
regional vector `pl` each equal the sum over the parcels of
(initial chi = 1) minus (current chi); within one `detrainer` call the
decrement chi_old - chi_new is added exactly once to the clamped
path-midpoint cell of `source` and exactly once to that cell's region entry
of `pl`, every other cell, region entry, and parcel being untouched; and no
handler other than `detrainer` ever changes chi. -/
theorem C4_mass_accounting {nlat nlon nreg N : ℕ} [NeZero nlat] [NeZero nlon] :
    (∀ (flag0 : Fin N → ℕ) (src0 : Fin 6 → Fin N → Slot)
        (l : List (Step nlat nlon nreg N)),
      (∑ a, ∑ b, (run (initProd nlat nlon nreg N flag0 src0) l).source a b)
        = (∑ j, (1 - (run (initProd nlat nlon nreg N flag0 src0) l).chi j)) ∧
      (∑ r, (run (initProd nlat nlon nreg N flag0 src0) l).pl r)
        = (∑ j, (1 - (run (initProd nlat nlon nreg N flag0 src0) l).chi j))) ∧
    (∀ (itime : ℤ) (xi yi pi ti : ℝ) (hyb : ℤ) (xf yf : ℝ) (udr : ℤ → ℤ → ℤ → ℝ)
        (i0 : Fin N) (irs : ℤ) (Lo1 La1 dlo dla : ℝ) (xshift yshift : ℤ)
        (mask : Fin nlat → Fin nlon → Fin nreg) (P : Prod0 nlat nlon nreg N)
        (D : Prod0 nlat nlon nreg N) (ym : Fin nlat) (xm : Fin nlon),
      P.flag_source i0 &&& I_DEAD = 0 →
      detr_offset ≤ pathMeanDetr udr hyb (gridRound xi Lo1 dlo) (gridRound yi La1 dla)
        (gridRound xf Lo1 dlo) (gridRound yf La1 dla) →
      D = (detrainer itime xi yi pi ti hyb xf yf udr i0 irs Lo1 La1 dlo dla
        xshift yshift mask P).1 →
      ym = clampIdx nlat ((gridRound yi La1 dla + gridRound yf La1 dla).tdiv 2 + yshift) →
      xm = clampIdx nlon ((gridRound xi Lo1 dlo + gridRound xf Lo1 dlo).tdiv 2 + xshift) →
      (D.source ym xm = P.source ym xm + (P.chi i0 - D.chi i0) ∧
       (∀ a b, ¬(a = ym ∧ b = xm) → D.source a b = P.source a b) ∧
       D.pl (mask ym xm) = P.pl (mask ym xm) + (P.chi i0 - D.chi i0) ∧
       (∀ r, r ≠ mask ym xm → D.pl r = P.pl r) ∧
       (∀ j, j ≠ i0 → D.chi j = P.chi j))) ∧
    (∀ (itime : ℤ) (x y p t : ℝ) (i0 : Fin N) (irs : ℤ) (rr : Fin 2 → Fin 2 → ℝ)
        (P : Prod0 nlat nlon nreg N),
      (exiter itime x y p t i0 irs rr P).chi = P.chi ∧
      (radada itime x y p t i0 irs P).chi = P.chi ∧
      (deadborne x y p t i0 P).chi = P.chi ∧
      (ageSweep itime x y p t i0 irs P).chi = P.chi) := by
  refine ⟨?_, ?_, ?_⟩
  · intro flag0 src0 l
    have hS : (∑ a, ∑ b, (initProd nlat nlon nreg N flag0 src0).source a b)
        = ∑ j, (1 - (initProd nlat nlon nreg N flag0 src0).chi j) := by
      simp [initProd]
    have hP : (∑ r, (initProd nlat nlon nreg N flag0 src0).pl r)
        = ∑ j, (1 - (initProd nlat nlon nreg N flag0 src0).chi j) := by
      simp [initProd]
    exact run_sums l _ hS hP
  · intro itime xi yi pi ti hyb xf yf udr i0 irs Lo1 La1 dlo dla xshift yshift mask P
      D ym xm hlive hoff hD hym hxm
    subst hD
    rw [detrainer_erode hlive hoff]
    split
    · simp only [cascade_source, cascade_chi, cascade_pl]
      exact erodedState_localized _ _ _ _ _ ym xm hym hxm
    · exact erodedState_localized _ _ _ _ _ ym xm hym hxm
  · intro itime x y p t i0 irs rr P
    exact ⟨exiter_chi itime x y p t i0 irs rr P, radada_chi itime x y p t i0 irs P,
      deadborne_chi x y p t i0 P, ageSweep_chi itime x y p t i0 irs P⟩

/-- C4 witness: the accounting facts evaluated on the one-parcel state, with
the unit detrainment-rate field and the degenerate one-cell path. -/
theorem C4_mass_accounting_witness :
    (P0.flag_source 0 &&& I_DEAD = 0) ∧
    (detr_offset ≤ pathMeanDetr udr1 50 (gridRound 0 0 1) (gridRound 0 0 1)
      (gridRound 0 0 1) (gridRound 0 0 1)) ∧
    ((∑ a, ∑ b, (run P0 [Step.deadborne 0 0 0 0 0]).source a b)
      = ∑ j, (1 - (run P0 [Step.deadborne 0 0 0 0 0]).chi j)) ∧
    ((detrainer 0 0 0 20000 200 50 0 0 udr1 0 0 0 0 1 1 0 0 mask0 P0).1.source
        (clampIdx 1 ((gridRound 0 0 1 + gridRound 0 0 1).tdiv 2 + 0))
        (clampIdx 1 ((gridRound 0 0 1 + gridRound 0 0 1).tdiv 2 + 0))
      = P0.source (clampIdx 1 ((gridRound 0 0 1 + gridRound 0 0 1).tdiv 2 + 0))
          (clampIdx 1 ((gridRound 0 0 1 + gridRound 0 0 1).tdiv 2 + 0))
        + (P0.chi 0
          - (detrainer 0 0 0 20000 200 50 0 0 udr1 0 0 0 0 1 1 0 0 mask0 P0).1.chi 0)) ∧
    ((exiter 0 0 0 0 0 0 0 stcDomain P0).chi = P0.chi) := by
  have h := @C4_mass_accounting 1 1 1 1 ⟨one_ne_zero⟩ ⟨one_ne_zero⟩
  have hlive : P0.flag_source 0 &&& I_DEAD = 0 := by decide
  refine ⟨hlive, concrete_off, ?_, ?_, ?_⟩
  · exact (h.1 (fun _ => 0) (fun _ _ => ⟨0, 0, 0, 0, 0⟩) [Step.deadborne 0 0 0 0 0]).1
  · exact (h.2.1 0 0 0 20000 200 50 0 0 udr1 0 0 0 0 1 1 0 0 mask0 P0 _ _ _
      hlive concrete_off rfl rfl rfl).1
  · exact (h.2.2 0 0 0 0 0 0 0 stcDomain P0).1

/-- C5: the ratchet `passed` starts at 10, only takes values in
{10, 9, 7, 5, 3, 1} and is non-increasing along every run; within one
`detrainer` call a rung is crossed only when chi has dropped below that
rung's threshold, in which case the slice start state is archived into the
matching milestone slot (1..5) and that rung's hit counter is bumped; and
the first crossing (10 to 9) sets the HIT bit without touching DEAD. -/
theorem C5_ratchet_cascade {nlat nlon nreg N : ℕ} [NeZero nlat] [NeZero nlon] :
    (∀ (flag0 : Fin N → ℕ) (src0 : Fin 6 → Fin N → Slot)
        (l1 l2 : List (Step nlat nlon nreg N)) (j : Fin N),
      rungVals ((run (initProd nlat nlon nreg N flag0 src0) l1).passed j) ∧
      (run (initProd nlat nlon nreg N flag0 src0) (l1 ++ l2)).passed j
        ≤ (run (initProd nlat nlon nreg N flag0 src0) l1).passed j) ∧
    (∀ (itime : ℤ) (xi yi pi ti : ℝ) (hyb : ℤ) (xf yf : ℝ) (udr : ℤ → ℤ → ℤ → ℝ)
        (i0 : Fin N) (irs : ℤ) (Lo1 La1 dlo dla : ℝ) (xshift yshift : ℤ)
        (mask : Fin nlat → Fin nlon → Fin nreg) (P : Prod0 nlat nlon nreg N)
        (D : Prod0 nlat nlon nreg N) (nh : Fin 6 → ℕ),
      (D, nh) = detrainer itime xi yi pi ti hyb xf yf udr i0 irs Lo1 La1 dlo dla
          xshift yshift mask P →
      (D.passed i0 ≤ P.passed i0) ∧
      (10 ≤ P.passed i0 → D.passed i0 ≤ 9 →
        D.chi i0 < 0.9 ∧ D.src 1 i0 = ⟨xi, yi, pi, ti, ((irs - itime : ℤ) : ℝ)⟩ ∧
          nh 1 = 1) ∧
      (9 ≤ P.passed i0 → D.passed i0 ≤ 7 →
        D.chi i0 < 0.7 ∧ D.src 2 i0 = ⟨xi, yi, pi, ti, ((irs - itime : ℤ) : ℝ)⟩ ∧
          nh 2 = 1) ∧
      (7 ≤ P.passed i0 → D.passed i0 ≤ 5 →
        D.chi i0 < 0.5 ∧ D.src 3 i0 = ⟨xi, yi, pi, ti, ((irs - itime : ℤ) : ℝ)⟩ ∧
          nh 3 = 1) ∧
      (5 ≤ P.passed i0 → D.passed i0 ≤ 3 →
        D.chi i0 < 0.3 ∧ D.src 4 i0 = ⟨xi, yi, pi, ti, ((irs - itime : ℤ) : ℝ)⟩ ∧
          nh 4 = 1) ∧
      (3 ≤ P.passed i0 → D.passed i0 ≤ 1 →
        D.chi i0 < 0.1 ∧ D.src 5 i0 = ⟨xi, yi, pi, ti, ((irs - itime : ℤ) : ℝ)⟩ ∧
          nh 5 = 1) ∧
      (P.passed i0 = 10 → D.passed i0 ≤ 9 →
        D.flag_source i0 &&& I_HIT ≠ 0 ∧
        D.flag_source i0 &&& I_DEAD = P.flag_source i0 &&& I_DEAD)) := by
  refine ⟨?_, ?_⟩
  · intro flag0 src0 l1 l2 j
    constructor
    · exact (run_passed l1 _ j).2 (Or.inl rfl)
    · rw [run_append]
      exact (run_passed l2 _ j).1
  · intro itime xi yi pi ti hyb xf yf udr i0 irs Lo1 La1 dlo dla xshift yshift mask P
      D nh hDnh
    have hD : D = (detrainer itime xi yi pi ti hyb xf yf udr i0 irs Lo1 La1 dlo dla
        xshift yshift mask P).1 := congrArg Prod.fst hDnh
    have hnh : nh = (detrainer itime xi yi pi ti hyb xf yf udr i0 irs Lo1 La1 dlo dla
        xshift yshift mask P).2 := congrArg Prod.snd hDnh
    subst hD
    subst hnh
    exact ⟨detrainer_fst_passed_le i0,
      fun h1 h2 => detrainer_cross1 h1 h2,
      fun h1 h2 => detrainer_cross2 h1 h2,
      fun h1 h2 => detrainer_cross3 h1 h2,
      fun h1 h2 => detrainer_cross4 h1 h2,
      fun h1 h2 => detrainer_cross5 h1 h2,
      fun h1 h2 => detrainer_hit h1 h2⟩

/-- C5 witness: with the unit detrainment-rate field, chi of the one-parcel
state drops from 1 below 0.1 in one call, so the first rung genuinely fires:
slot 1 is written, hit counter 1 is bumped, and HIT is set with DEAD clear. -/
theorem C5_ratchet_cascade_witness :
    (rungVals ((run P0 ([] : List (Step 1 1 1 1))).passed 0)) ∧
    ((run P0 (([] : List (Step 1 1 1 1)) ++ [])).passed 0
      ≤ (run P0 ([] : List (Step 1 1 1 1))).passed 0) ∧
    ((10:ℤ) ≤ P0.passed 0) ∧
    ((detrainer 0 0 0 20000 200 50 0 0 udr1 0 0 0 0 1 1 0 0 mask0 P0).1.passed 0 ≤ 9) ∧
    ((detrainer 0 0 0 20000 200 50 0 0 udr1 0 0 0 0 1 1 0 0 mask0 P0).1.chi 0 < 0.9 ∧
     (detrainer 0 0 0 20000 200 50 0 0 udr1 0 0 0 0 1 1 0 0 mask0 P0).1.src 1 0
       = ⟨0, 0, 20000, 200, (((0:ℤ) - 0 : ℤ) : ℝ)⟩ ∧
     (detrainer 0 0 0 20000 200 50 0 0 udr1 0 0 0 0 1 1 0 0 mask0 P0).2 1 = 1) ∧
    ((detrainer 0 0 0 20000 200 50 0 0 udr1 0 0 0 0 1 1 0 0 mask0
        P0).1.flag_source 0 &&& I_HIT ≠ 0 ∧
     (detrainer 0 0 0 20000 200 50 0 0 udr1 0 0 0 0 1 1 0 0 mask0
        P0).1.flag_source 0 &&& I_DEAD = P0.flag_source 0 &&& I_DEAD) := by
  have h := @C5_ratchet_cascade 1 1 1 1 ⟨one_ne_zero⟩ ⟨one_ne_zero⟩
  have h2 := h.2 0 0 0 20000 200 50 0 0 udr1 0 0 0 0 1 1 0 0 mask0 P0
    (detrainer 0 0 0 20000 200 50 0 0 udr1 0 0 0 0 1 1 0 0 mask0 P0).1
    (detrainer 0 0 0 20000 200 50 0 0 udr1 0 0 0 0 1 1 0 0 mask0 P0).2
    Prod.mk.eta
  have h10 : (10:ℤ) ≤ P0.passed 0 := by decide
  have hexit : (detrainer 0 0 0 20000 200 50 0 0 udr1 0 0 0 0 1 1 0 0
      mask0 P0).1.passed 0 ≤ 9 := by
    rw [concrete_detrainer_passed]
    norm_num
  have hr := h.1 (fun _ => 0) (fun _ _ => ⟨0, 0, 0, 0, 0⟩) [] [] 0
  exact ⟨hr.1, hr.2, h10, hexit, h2.2.1 h10 hexit,
    h2.2.2.2.2.2.2 (by decide) hexit⟩

/-- C6 (amended form): the age-limit sweep terminates a parcel exactly when
its age in seconds exceeds `(age_bound - 0.25) * 86400` and its flag has
none of the bits of `I_STOP = I_HIT + I_DEAD` (not merely DEAD clear, as the
spec says): then the flag gains `I_DEAD + I_OLD` (both bits end set) and
milestone slot 0 receives the parcel's current position, pressure and
temperature from the older snapshot with the age converted to days; other
parcels are untouched. -/
theorem C6_age_limit_sweep {nlat nlon nreg N : ℕ} (itime : ℤ) (x y p t : ℝ)
    (i0 : Fin N) (irs : ℤ) (P : Prod0 nlat nlon nreg N)
    (hage : (age_bound - 0.25) * 86400 < ((irs - itime : ℤ) : ℝ))
    (hflag : P.flag_source i0 &&& I_STOP = 0) :
    (ageSweep itime x y p t i0 irs P).flag_source i0
      = P.flag_source i0 ||| (I_DEAD + I_OLD) ∧
    (ageSweep itime x y p t i0 irs P).flag_source i0 &&& I_DEAD ≠ 0 ∧
    (ageSweep itime x y p t i0 irs P).flag_source i0 &&& I_OLD ≠ 0 ∧
    (ageSweep itime x y p t i0 irs P).src 0 i0
      = ⟨x, y, p, t, ((irs - itime : ℤ) : ℝ) / 86400⟩ ∧
    (∀ j, j ≠ i0 →
      (ageSweep itime x y p t i0 irs P).flag_source j = P.flag_source j) := by
  have hc : ((age_bound - 0.25) * 86400 < ((irs - itime : ℤ) : ℝ)) ∧
      P.flag_source i0 &&& I_STOP = 0 := ⟨hage, hflag⟩
  rw [ageSweep, if_pos hc]
  refine ⟨?_, ?_, ?_, ?_, ?_⟩
  · show Function.update P.flag_source i0
        (P.flag_source i0 ||| (I_DEAD + I_OLD)) i0 = _
    rw [Function.update_same]
  · show Function.update P.flag_source i0
        (P.flag_source i0 ||| (I_DEAD + I_OLD)) i0 &&& I_DEAD ≠ 0
    rw [Function.update_same]
    exact or_and_ne_zero _ _ _ (by decide)
  · show Function.update P.flag_source i0
        (P.flag_source i0 ||| (I_DEAD + I_OLD)) i0 &&& I_OLD ≠ 0
    rw [Function.update_same]
    exact or_and_ne_zero _ _ _ (by decide)
  · show setSlot P.src 0 i0 ⟨x, y, p, t, ((irs - itime : ℤ) : ℝ) / 86400⟩ 0 i0 = _
    exact setSlot_self _ _ _ _
  · intro j hj
    show Function.update P.flag_source i0
        (P.flag_source i0 ||| (I_DEAD + I_OLD)) j = _
    rw [Function.update_noteq hj]

/-- C6 witness: a clean-flag parcel aged about 46.3 days (4000000 s) against
the 44-day bound is terminated: DEAD and OLD end set and slot 0 holds the
age in days. -/
theorem C6_age_limit_sweep_witness :
    ((age_bound - 0.25) * 86400 < ((((0:ℤ) - (-4000000 : ℤ)) : ℤ) : ℝ)) ∧
    (P0.flag_source 0 &&& I_STOP = 0) ∧
    ((ageSweep (-4000000) 1 2 3 4 0 0 P0).flag_source 0
      = P0.flag_source 0 ||| (I_DEAD + I_OLD)) ∧
    ((ageSweep (-4000000) 1 2 3 4 0 0 P0).src 0 0
      = ⟨1, 2, 3, 4, ((((0:ℤ) - (-4000000 : ℤ)) : ℤ) : ℝ) / 86400⟩) := by
  have hage : (age_bound - 0.25) * 86400 < ((((0:ℤ) - (-4000000 : ℤ)) : ℤ) : ℝ) := by
    rw [age_bound]
    push_cast
    norm_num
  have hflag : P0.flag_source 0 &&& I_STOP = 0 := by decide
  have h := C6_age_limit_sweep (-4000000) 1 2 3 4 0 0 P0 hage hflag
  exact ⟨hage, hflag, h.1, h.2.2.2.1⟩

/-- C6 (counterexample to the claim as stated): a live parcel (DEAD clear)
whose flag has `I_HIT` set and whose age is far past the bound is NOT
terminated by the sweep: the code excludes every parcel with any `I_STOP`
bit, not only the already-DEAD ones. -/
theorem C6_age_limit_counterexample :
    (PHit.flag_source 0 &&& I_DEAD = 0) ∧
    (age_bound * 86400 < ((((0:ℤ) - (-4000000 : ℤ)) : ℤ) : ℝ)) ∧
    ageSweep (-4000000) 1 2 3 4 0 0 PHit = PHit := by
  refine ⟨by decide, ?_, ?_⟩
  · rw [age_bound]
    push_cast
    norm_num
  · rw [ageSweep]
    split
    · rename_i hcon
      exfalso
      have h2 := hcon.2
      revert h2
      decide
    · rfl

/-- C10: the age stored into milestone slot 0 is `ir_start - itime` in
seconds when the exit handler or the ground-contact handler terminates the
parcel, but `(ir_start - itime)/86400` in days when the age-limit sweep
does; the rung slots 1..5 store seconds; and a nonzero age never equals its
own days rendering, so slot 0 cannot be read in one uniform unit. -/
theorem C10_slot0_age_units {nlat nlon nreg N : ℕ} (itime : ℤ) (x y p t : ℝ)
    (i0 : Fin N) (irs : ℤ) (rr : Fin 2 → Fin 2 → ℝ) (P : Prod0 nlat nlon nreg N)
    (hlive : P.flag_source i0 &&& I_DEAD = 0)
    (hstop : P.flag_source i0 &&& I_STOP = 0)
    (hage : (age_bound - 0.25) * 86400 < ((irs - itime : ℤ) : ℝ)) :
    (exiter itime x y p t i0 irs rr P).src 0 i0
      = ⟨x, y, p, t, ((irs - itime : ℤ) : ℝ)⟩ ∧
    (radada itime x y p t i0 irs P).src 0 i0
      = ⟨x, y, p, t, ((irs - itime : ℤ) : ℝ)⟩ ∧
    (ageSweep itime x y p t i0 irs P).src 0 i0
      = ⟨x, y, p, t, ((irs - itime : ℤ) : ℝ) / 86400⟩ ∧
    (∀ (k : Fin 6) (newp : ℤ) (setHit : Bool) (xi yi pi ti : ℝ),
      (fireRung k newp setHit itime xi yi pi ti i0 irs P).src k i0
        = ⟨xi, yi, pi, ti, ((irs - itime : ℤ) : ℝ)⟩) ∧
    (∀ a : ℝ, a ≠ 0 → a ≠ a / 86400) := by
  refine ⟨?_, ?_, ?_, ?_, ?_⟩
  · rw [exiter, if_pos hlive]
    show setSlot P.src 0 i0 ⟨x, y, p, t, ((irs - itime : ℤ) : ℝ)⟩ 0 i0 = _
    exact setSlot_self _ _ _ _
  · rw [radada, if_pos hlive]
    show setSlot P.src 0 i0 ⟨x, y, p, t, ((irs - itime : ℤ) : ℝ)⟩ 0 i0 = _
    exact setSlot_self _ _ _ _
  · have hc : ((age_bound - 0.25) * 86400 < ((irs - itime : ℤ) : ℝ)) ∧
        P.flag_source i0 &&& I_STOP = 0 := ⟨hage, hstop⟩
    rw [ageSweep, if_pos hc]
    show setSlot P.src 0 i0 ⟨x, y, p, t, ((irs - itime : ℤ) : ℝ) / 86400⟩ 0 i0 = _
    exact setSlot_self _ _ _ _
  · intro k newp setHit xi yi pi ti
    exact fireRung_src_self P
  · intro a ha heq
    apply ha
    linarith [heq]

/-- C10 witness: a parcel aged 4000000 s; the exit handler stores 4000000
into slot 0 while the age sweep stores 4000000/86400, and these differ. -/
theorem C10_slot0_age_units_witness :
    (P0.flag_source 0 &&& I_DEAD = 0) ∧
    (P0.flag_source 0 &&& I_STOP = 0) ∧
    ((age_bound - 0.25) * 86400 < ((((4000000:ℤ) - (0:ℤ)) : ℤ) : ℝ)) ∧
    ((exiter 0 1 2 3 4 0 4000000 stcDomain P0).src 0 0
      = ⟨1, 2, 3, 4, ((((4000000:ℤ) - (0:ℤ)) : ℤ) : ℝ)⟩) ∧
    ((ageSweep 0 1 2 3 4 0 4000000 P0).src 0 0
      = ⟨1, 2, 3, 4, ((((4000000:ℤ) - (0:ℤ)) : ℤ) : ℝ) / 86400⟩) ∧
    ((4000000:ℝ) ≠ (4000000:ℝ) / 86400) := by
  have hlive : P0.flag_source 0 &&& I_DEAD = 0 := by decide
  have hstop : P0.flag_source 0 &&& I_STOP = 0 := by decide
  have hage : (age_bound - 0.25) * 86400 < ((((4000000:ℤ) - (0:ℤ)) : ℤ) : ℝ) := by
    rw [age_bound]
    push_cast
    norm_num
  have h := C10_slot0_age_units 0 1 2 3 4 0 4000000 stcDomain P0 hlive hstop hage
  exact ⟨hlive, hstop, hage, h.1, h.2.2.1, h.2.2.2.2 4000000 (by norm_num)⟩

end STC
